import Mathlib

/-!
# Worker jail of the render server (`src/server/render_worker.c`)

A shallow embedding of `render_worker.c`.

* Conditional compilation (`ENABLE_RENDER_SERVER_WORKER_*`) is a `Backend` argument.
* The memory touched by the jail functions is a `World`: the list of the live
  `render_worker_jail` structs, a jail pointer being an index into it.  A worker record is a
  value of `render_worker`; the jail registry holds the addresses of the records.
* Every call into the operating system, libc or libminijail takes its result from an
  explicit argument (`SpawnOs`, `WaitOs`, `JailOs`, `BpfFile`) and is recorded in a list of
  `OsCall`s returned next to the result.
* `assert` is modelled as active: a failed assertion ends the program (`Outcome.abort`).
-/

namespace RenderWorker

/-- A non-null pointer value. -/
abbrev Addr := Nat

/-- One byte of a buffer or of a file. -/
abbrev Byte := Nat

/-- The value of a function pointer `int (*)(void *)`. -/
abbrev FnPtr := Nat

/-- Which of `ENABLE_RENDER_SERVER_WORKER_PROCESS`, `..._THREAD`, `..._MINIJAIL` is set. -/
inductive Backend where
  | process
  | thread
  | minijail
  deriving DecidableEq, Repr

/-- Modelled from the spec: `enum render_worker_jail_seccomp_filter` is declared in
`render_worker.h`, which is not part of the sources; the four selectors are the ones the
spec lists (None, CompiledFilterProgram, TextualPolicyFile,
TextualPolicyFileWithFailureLogging) under the names `render_worker.c` uses. -/
inductive render_worker_jail_seccomp_filter where
  | NONE
  | BPF
  | MINIJAIL_POLICY
  | MINIJAIL_POLICY_LOG
  deriving DecidableEq, Repr

/-- The result codes of `thrd_create` and `thrd_join` (`threads.h`). -/
inductive thrd_result where
  | thrd_success
  | thrd_busy
  | thrd_error
  | thrd_nomem
  | thrd_timedout
  deriving DecidableEq, Repr

/-- Largest value of a C `int`. -/
def INT_MAX : Int := 2147483647

/-- Smallest value of a C `int`. -/
def INT_MIN : Int := -2147483648

/-- The value a 32-bit two's complement `int` holds after an arithmetic result `x`. -/
def wrap_int (x : Int) : Int := (x + 2147483648) % 4294967296 - 2147483648

/-- The value an `unsigned short` holds after the assignment of `x`. -/
def to_u16 (x : Nat) : Nat := x % 65536

/-- The type `struct sock_fprog` of `linux/filter.h`: `unsigned short len` and the pointer
`filter`, here the bytes of the buffer it points to. -/
structure sock_fprog where
  len : Nat
  filter : List Byte
  deriving DecidableEq, Repr

/-- The calls `render_worker.c` makes into libc, the kernel, libminijail and the logger. -/
inductive OsCall where
  | render_log
  | calloc_worker (thread_data_size : Nat)
  | free (p : Addr)
  | fork
  | thrd_create (func : FnPtr) (arg : List Byte)
  | thrd_join (thread : Int)
  | kill_SIGKILL (pid : Int)
  | waitid_P_PID (pid : Int) (wexited : Bool) (wnohang : Bool)
  | minijail_new
  | minijail_destroy (j : Option Addr)
  | minijail_no_new_privs (j : Option Addr)
  | minijail_set_seccomp_filters (j : Option Addr) (prog : sock_fprog)
  | free_filter
  | minijail_log_seccomp_filter_failures (j : Option Addr)
  | minijail_parse_seccomp_filters (j : Option Addr) (path : String)
  | minijail_use_seccomp_filter (j : Option Addr)
  | minijail_copy_jail (template : Option Addr) (j : Addr)
  | minijail_fork (j : Addr)
  deriving DecidableEq, Repr

/-- How a call ends: it returns a value, an `assert` fails and the program is terminated, or
the call dereferences a pointer that does not point to a live object. -/
inductive Outcome (α : Type) where
  | ret (a : α)
  | abort
  | undefined
  deriving DecidableEq, Repr

/-- The type `struct render_worker_jail`; `workers` lists the addresses of the linked worker
records, the most recently added first, `minijail` is `none` for a null pointer. -/
structure render_worker_jail where
  max_worker_count : Int
  minijail : Option Addr
  workers : List Addr
  worker_count : Int
  deriving DecidableEq, Repr

/-- The type `struct render_worker`.  The C struct has `thread` under the thread backend and
`pid` under the two process backends; the field the build does not have stays `0`. -/
structure render_worker where
  thread : Int
  pid : Int
  reaped : Bool
  thread_data : List Byte
  deriving DecidableEq, Repr

/-- The live jails; a jail pointer is an index into the list. -/
abbrev World := List render_worker_jail

/-! ## Loading a compiled filter program -/

/-- What the file system and `malloc` answer to `load_bpf_program`. -/
structure BpfFile where
  /-- the result of `open(path, O_RDONLY)` -/
  open_fd : Int
  /-- the result of `lseek(fd, 0, SEEK_END)` -/
  size : Int
  /-- the result of `malloc(size)`, `none` for `NULL` -/
  malloc : Option Addr
  /-- the byte of the file at each offset -/
  content : Nat → Byte
  /-- the return value of the `k`-th call of `read` -/
  read : Nat → Int

/-- How the `while (cur < size)` loop of `load_bpf_program` ends. -/
inductive ReadLoop where
  | done (cur : Int) (data : List Byte)
  | fail
  | out_of_fuel
  deriving DecidableEq, Repr

/-- The loop `while (cur < size) { r = read(fd, data + cur, size - cur); if (r <= 0) goto fail;
cur += r; }`; `k` counts the calls of `read`, `data` is the filled part of the buffer. -/
def read_loop (file : BpfFile) (size : Int) : Nat → Nat → Int → List Byte → ReadLoop
  | 0, _, cur, data => if cur < size then ReadLoop.out_of_fuel else ReadLoop.done cur data
  | fuel + 1, k, cur, data =>
    if cur < size then
      if file.read k ≤ 0 then ReadLoop.fail
      else read_loop file size fuel (k + 1) (cur + file.read k)
        (data ++ (List.range' cur.toNat (file.read k).toNat).map file.content)
    else ReadLoop.done cur data

/-- The function `load_bpf_program`; `S` is `sizeof(struct sock_filter)`.  The loop gets
`size` units of fuel, which it never uses up (`read_loop_fuel`). -/
def load_bpf_program (S : Nat) (file : BpfFile) : Option sock_fprog :=
  if file.open_fd < 0 then none
  else if file.size ≤ 0 ∨ file.size % (S : Int) ≠ 0 then none
  else
    match file.malloc with
    | none => none
    | some _ =>
      match read_loop file file.size file.size.toNat 0 0 [] with
      | ReadLoop.done _ data => some { len := to_u16 (file.size.toNat / S), filter := data }
      | _ => none

/-- What the allocator, libminijail and the file system answer to
`render_worker_jail_create`. -/
structure JailOs where
  /-- whether `calloc(1, sizeof(*jail))` returns a non-null pointer -/
  calloc : Bool
  /-- the result of `minijail_new()` -/
  minijail_new : Option Addr
  /-- the filter file at `seccomp_path` -/
  file : BpfFile

/-- The function `create_minijail`.  It does not test the result of `minijail_new()`: every
libminijail call is recorded with the handle it is given, a null one included, and what
libminijail does with a null handle is outside this file. -/
def create_minijail (S : Nat) (seccomp_filter : render_worker_jail_seccomp_filter)
    (seccomp_path : String) (os : JailOs) : Option Addr × List OsCall :=
  let j := os.minijail_new
  let c0 := [OsCall.minijail_new, OsCall.minijail_no_new_privs j]
  if seccomp_filter ≠ render_worker_jail_seccomp_filter.NONE then
    if seccomp_filter = render_worker_jail_seccomp_filter.BPF then
      match load_bpf_program S os.file with
      | none => (none, c0 ++ [OsCall.minijail_destroy j])
      | some prog =>
        (j, c0 ++ [OsCall.minijail_set_seccomp_filters j prog, OsCall.free_filter,
          OsCall.minijail_use_seccomp_filter j])
    else
      (j, c0 ++
        (if seccomp_filter = render_worker_jail_seccomp_filter.MINIJAIL_POLICY_LOG then
          [OsCall.minijail_log_seccomp_filter_failures j] else []) ++
        [OsCall.minijail_parse_seccomp_filters j seccomp_path,
          OsCall.minijail_use_seccomp_filter j])
  else (j, c0)

/-- Modelled from the spec: `list_inithead` of the list utility header, which is not part of
the sources; the registry is a collection of worker records, empty at construction. -/
def list_inithead : List Addr := []

/-- Modelled from the spec: `list_add` of the list utility header, which is not part of the
sources; the record is linked into the given registry. -/
def list_add (worker : Addr) (workers : List Addr) : List Addr := worker :: workers

/-- Modelled from the spec: `list_del` of the list utility header, which is not part of the
sources.  It gets the link node of the record only, not the list: the record is unlinked
from the registry that holds it, whichever jail that registry belongs to. -/
def list_del (W : World) (worker : Addr) : World :=
  W.map fun J => { J with workers := J.workers.erase worker }

/-- Whether the record is linked into the registry of some jail. -/
def is_linked (W : World) (worker : Addr) : Bool :=
  W.any fun J => J.workers.contains worker

/-- The function `render_worker_jail_create`; the first component is `none` for `NULL`. -/
def render_worker_jail_create (b : Backend) (S : Nat) (max_worker_count : Int)
    (seccomp_filter : render_worker_jail_seccomp_filter) (seccomp_path : String)
    (os : JailOs) : Option render_worker_jail × List OsCall :=
  if os.calloc = false then (none, [])
  else
    let jail : render_worker_jail :=
      { max_worker_count := max_worker_count, minijail := none,
        workers := list_inithead, worker_count := 0 }
    match b with
    | Backend.minijail =>
      match create_minijail S seccomp_filter seccomp_path os with
      | (none, calls) => (none, calls)
      | (some m, calls) => (some { jail with minijail := some m }, calls)
    | _ =>
      if seccomp_filter ≠ render_worker_jail_seccomp_filter.NONE then (none, [])
      else (some jail, [])

/-! ## Workers -/

/-- The function `render_worker_jail_add_worker`, on the jail struct. -/
def render_worker_jail_add_worker (J : render_worker_jail) (worker : Addr) :
    render_worker_jail :=
  { J with workers := list_add worker J.workers, worker_count := wrap_int (J.worker_count + 1) }

/-- The function `render_worker_jail_remove_worker`.  Unlinking a record that is in no
registry follows links that point nowhere. -/
def render_worker_jail_remove_worker (W : World) (jail : Nat) (worker : Addr) :
    Outcome (World × List OsCall) :=
  if is_linked W worker = false then Outcome.undefined
  else
    match (list_del W worker)[jail]? with
    | none => Outcome.undefined
    | some J =>
      Outcome.ret ((list_del W worker).set jail
        { J with worker_count := wrap_int (J.worker_count - 1) }, [OsCall.free worker])

/-- What the allocator and the spawn primitives answer to `render_worker_create`. -/
structure SpawnOs where
  /-- the result of `calloc(1, sizeof(*worker) + thread_data_size)`, `none` for `NULL` -/
  calloc : Option Addr
  /-- the return value of `fork()` -/
  fork : Int
  /-- the return value of `thrd_create` -/
  thrd_create : thrd_result
  /-- the handle `thrd_create` stores into `worker->thread` -/
  thread : Int
  /-- the result of `minijail_new()` in `fork_minijail` -/
  minijail_new : Option Addr
  /-- the return value of `minijail_copy_jail` -/
  minijail_copy_jail : Int
  /-- the return value of `minijail_fork` -/
  minijail_fork : Int
  deriving DecidableEq, Repr

/-- The function `fork_minijail`. -/
def fork_minijail (template : Option Addr) (os : SpawnOs) : Int × List OsCall :=
  match os.minijail_new with
  | none => (-1, [OsCall.minijail_new])
  | some j =>
    if os.minijail_copy_jail ≠ 0 then
      (-1, [OsCall.minijail_new, OsCall.minijail_copy_jail template j,
        OsCall.minijail_destroy (some j)])
    else
      (os.minijail_fork, [OsCall.minijail_new, OsCall.minijail_copy_jail template j,
        OsCall.minijail_fork j, OsCall.minijail_destroy (some j)])

/-- What `render_worker_create` returns and leaves behind: `ret` is `none` for `NULL`, else
the address of the new record and the record. -/
structure CreateRes where
  ret : Option (Addr × render_worker)
  world : World
  calls : List OsCall
  deriving DecidableEq, Repr

/-- The record after `calloc` and `memcpy(worker->thread_data, thread_data, thread_data_size)`. -/
def fresh_worker (thread_data : List Byte) (thread_data_size : Nat) : render_worker :=
  { thread := 0, pid := 0, reaped := false, thread_data := thread_data.take thread_data_size }

/-- The `#if` block of `render_worker_create` that spawns: the record with its identity
stored, `ok`, and the calls made. -/
def spawn (b : Backend) (J : render_worker_jail) (thread_func : FnPtr) (worker : render_worker)
    (os : SpawnOs) : render_worker × Bool × List OsCall :=
  match b with
  | Backend.process => ({ worker with pid := os.fork }, decide (os.fork ≥ 0), [OsCall.fork])
  | Backend.thread =>
    ({ worker with thread := os.thread }, decide (os.thrd_create = thrd_result.thrd_success),
      [OsCall.thrd_create thread_func worker.thread_data])
  | Backend.minijail =>
    ({ worker with pid := (fork_minijail J.minijail os).1 },
      decide ((fork_minijail J.minijail os).1 ≥ 0), (fork_minijail J.minijail os).2)

/-- The function `render_worker_create`. -/
def render_worker_create (b : Backend) (W : World) (jail : Nat) (thread_func : FnPtr)
    (thread_data : List Byte) (thread_data_size : Nat) (os : SpawnOs) : Outcome CreateRes :=
  match W[jail]? with
  | none => Outcome.undefined
  | some J =>
    if J.worker_count ≥ J.max_worker_count then
      Outcome.ret { ret := none, world := W, calls := [OsCall.render_log] }
    else
      match os.calloc with
      | none =>
        Outcome.ret { ret := none, world := W, calls := [OsCall.calloc_worker thread_data_size] }
      | some a =>
        match spawn b J thread_func (fresh_worker thread_data thread_data_size) os with
        | (worker, ok, calls) =>
          if ok = false then
            Outcome.ret { ret := none, world := W,
                          calls := OsCall.calloc_worker thread_data_size :: calls ++ [OsCall.free a] }
          else
            Outcome.ret { ret := some (a, worker),
                          world := W.set jail (render_worker_jail_add_worker J a),
                          calls := OsCall.calloc_worker thread_data_size :: calls }

/-- The function `render_worker_is_record`; `cur` is `thrd_current()`. -/
def render_worker_is_record (b : Backend) (cur : Int) (worker : render_worker) : Bool :=
  match b with
  | Backend.thread => decide (worker.thread ≠ cur)
  | _ => decide (worker.pid > 0)

/-- The function `render_worker_kill`. -/
def render_worker_kill (b : Backend) (cur : Int) (worker : render_worker) :
    Outcome (List OsCall) :=
  if render_worker_is_record b cur worker = false then Outcome.abort
  else
    match b with
    | Backend.thread => Outcome.ret []
    | _ => Outcome.ret [OsCall.kill_SIGKILL worker.pid]

/-- What the kernel or the thread library answers to `render_worker_reap`. -/
structure WaitOs where
  /-- the return value of `waitid` -/
  waitid_ret : Int
  /-- the pid `waitid` stores into `siginfo.si_pid`, `none` when it leaves `siginfo` alone -/
  si_pid : Option Int
  /-- the return value of `thrd_join` -/
  thrd_join : thrd_result
  deriving DecidableEq, Repr

/-- What `render_worker_reap` returns and leaves behind. -/
structure ReapRes where
  ret : Bool
  worker : render_worker
  calls : List OsCall
  deriving DecidableEq, Repr

/-- The function `render_worker_reap`; `siginfo` starts as `{ 0 }`. -/
def render_worker_reap (b : Backend) (cur : Int) (worker : render_worker) (wait : Bool)
    (os : WaitOs) : Outcome ReapRes :=
  if render_worker_is_record b cur worker = false then Outcome.abort
  else if worker.reaped = true then Outcome.ret { ret := true, worker := worker, calls := [] }
  else
    match b with
    | Backend.thread =>
      Outcome.ret { ret := decide (os.thrd_join = thrd_result.thrd_success),
                    worker := { worker with
                      reaped := decide (os.thrd_join = thrd_result.thrd_success) },
                    calls := [OsCall.thrd_join worker.thread] }
    | _ =>
      Outcome.ret { ret := decide (os.waitid_ret = 0 ∧ os.si_pid.getD 0 = worker.pid),
                    worker := { worker with
                      reaped := decide (os.waitid_ret = 0 ∧ os.si_pid.getD 0 = worker.pid) },
                    calls := [OsCall.waitid_P_PID worker.pid true (!wait)] }

/-- The function `render_worker_destroy`. -/
def render_worker_destroy (W : World) (jail : Nat) (worker : Addr) :
    Outcome (World × List OsCall) :=
  render_worker_jail_remove_worker W jail worker

/-! ## Sequences of calls -/

/-- The arguments of one call of `render_worker_create` and what the system answers. -/
structure CreateReq where
  thread_func : FnPtr
  thread_data : List Byte
  thread_data_size : Nat
  os : SpawnOs
  deriving DecidableEq, Repr

/-- Whether the allocation and the spawn primitive of the backend succeed. -/
def spawn_succeeds (b : Backend) (os : SpawnOs) : Bool :=
  os.calloc.isSome &&
    match b with
    | Backend.process => decide (0 ≤ os.fork)
    | Backend.thread => decide (os.thrd_create = thrd_result.thrd_success)
    | Backend.minijail =>
      os.minijail_new.isSome && decide (os.minijail_copy_jail = 0) &&
        decide (0 ≤ os.minijail_fork)

/-- Whether the spawn primitive of the backend fails: `fork` or `minijail_fork` returns a
negative pid, `thrd_create` returns something else than `thrd_success`, or the sandbox
context cannot be derived from the template. -/
def spawn_fails (b : Backend) (os : SpawnOs) : Bool :=
  match b with
  | Backend.process => decide (os.fork < 0)
  | Backend.thread => decide (os.thrd_create ≠ thrd_result.thrd_success)
  | Backend.minijail =>
    os.minijail_new.isNone || decide (os.minijail_copy_jail ≠ 0) || decide (os.minijail_fork < 0)

/-- One `render_worker_create` call on the jail `jail`. -/
def create_call (b : Backend) (jail : Nat) (W : World) (r : CreateReq) : Outcome CreateRes :=
  render_worker_create b W jail r.thread_func r.thread_data r.thread_data_size r.os

/-- Consecutive `render_worker_create` calls on one jail: what each returned, and the world
after the last. -/
def create_calls (b : Backend) (jail : Nat) :
    World → List CreateReq → Outcome (List (Option (Addr × render_worker)) × World)
  | W, [] => Outcome.ret ([], W)
  | W, r :: rs =>
    match create_call b jail W r with
    | Outcome.ret res =>
      match create_calls b jail res.world rs with
      | Outcome.ret (l, W') => Outcome.ret (res.ret :: l, W')
      | Outcome.abort => Outcome.abort
      | Outcome.undefined => Outcome.undefined
    | Outcome.abort => Outcome.abort
    | Outcome.undefined => Outcome.undefined

/-- A call on a jail: `render_worker_create` or `render_worker_destroy`. -/
inductive JailOp where
  | create (r : CreateReq)
  | destroy (worker : Addr)
  deriving DecidableEq, Repr

/-- The world after one call on the jail `jail`. -/
def jail_step (b : Backend) (jail : Nat) (W : World) : JailOp → Outcome World
  | JailOp.create r =>
    match create_call b jail W r with
    | Outcome.ret res => Outcome.ret res.world
    | Outcome.abort => Outcome.abort
    | Outcome.undefined => Outcome.undefined
  | JailOp.destroy worker =>
    match render_worker_destroy W jail worker with
    | Outcome.ret res => Outcome.ret res.1
    | Outcome.abort => Outcome.abort
    | Outcome.undefined => Outcome.undefined

/-- The world after a sequence of calls on the jail `jail`. -/
def jail_run (b : Backend) (jail : Nat) : World → List JailOp → Outcome World
  | W, [] => Outcome.ret W
  | W, op :: ops =>
    match jail_step b jail W op with
    | Outcome.ret W' => jail_run b jail W' ops
    | Outcome.abort => Outcome.abort
    | Outcome.undefined => Outcome.undefined

/-- Whether the record is linked into the registry of the jail `jail`. -/
def registered (W : World) (jail : Nat) (worker : Addr) : Bool :=
  match W[jail]? with
  | some J => J.workers.contains worker
  | none => false

/-- Whether every `render_worker_destroy` of the sequence is called on a record that is
registered in the jail at the time of the call. -/
def destroys_registered (b : Backend) (jail : Nat) : World → List JailOp → Bool
  | _, [] => true
  | W, op :: ops =>
    (match op with
      | JailOp.destroy worker => registered W jail worker
      | JailOp.create _ => true) &&
    (match jail_step b jail W op with
      | Outcome.ret W' => destroys_registered b jail W' ops
      | _ => true)

/-- Whether every successful `calloc` of the sequence returns an address that is not the
address of a record registered in the jail at the time of the call, as an allocator does
for records that have not been freed. -/
def allocs_fresh (b : Backend) (jail : Nat) : World → List JailOp → Bool
  | _, [] => true
  | W, op :: ops =>
    (match op with
      | JailOp.create r =>
        match r.os.calloc with
        | some a => !registered W jail a
        | none => true
      | JailOp.destroy _ => true) &&
    (match jail_step b jail W op with
      | Outcome.ret W' => allocs_fresh b jail W' ops
      | _ => true)

/-- The invariant of a jail: `worker_count` is the size of the registry and lies between `0`
and `max_worker_count`. -/
def jail_invariant (J : render_worker_jail) : Prop :=
  J.worker_count = (J.workers.length : Int) ∧ 0 ≤ J.worker_count ∧
    J.worker_count ≤ J.max_worker_count

instance (J : render_worker_jail) : Decidable (jail_invariant J) := by
  unfold jail_invariant
  infer_instance

/-- A call on a worker record: `render_worker_kill` or `render_worker_reap`, with the thread
that makes the call. -/
inductive WorkerOp where
  | kill (cur : Int)
  | reap (cur : Int) (wait : Bool) (os : WaitOs)
  deriving DecidableEq, Repr

/-- The record after one call on it. -/
def worker_step (b : Backend) (worker : render_worker) : WorkerOp → Outcome render_worker
  | WorkerOp.kill cur =>
    match render_worker_kill b cur worker with
    | Outcome.ret _ => Outcome.ret worker
    | Outcome.abort => Outcome.abort
    | Outcome.undefined => Outcome.undefined
  | WorkerOp.reap cur wait os =>
    match render_worker_reap b cur worker wait os with
    | Outcome.ret res => Outcome.ret res.worker
    | Outcome.abort => Outcome.abort
    | Outcome.undefined => Outcome.undefined

/-- The record after a sequence of calls on it. -/
def worker_run (b : Backend) : render_worker → List WorkerOp → Outcome render_worker
  | worker, [] => Outcome.ret worker
  | worker, op :: ops =>
    match worker_step b worker op with
    | Outcome.ret worker' => worker_run b worker' ops
    | Outcome.abort => Outcome.abort
    | Outcome.undefined => Outcome.undefined

/-- What runs in the execution unit a spawn call starts, as far as the call itself decides
it: `thrd_create(&thr, func, arg)` makes the new thread run `func(arg)`, while after `fork`
the new process goes on with the code of the caller. -/
def entry_invocation : OsCall → Option (FnPtr × List Byte)
  | OsCall.thrd_create func arg => some (func, arg)
  | _ => none

/-- The invocations of an entry routine that the calls of a trace start. -/
def entry_invocations (calls : List OsCall) : List (FnPtr × List Byte) :=
  calls.filterMap entry_invocation

/-- The thread that makes a call on a worker record. -/
def WorkerOp.cur : WorkerOp → Int
  | WorkerOp.kill cur => cur
  | WorkerOp.reap cur _ _ => cur

/-- The file offset after the first `k` calls of `read`: the sum of their return values. -/
def read_offset (file : BpfFile) : Nat → Int
  | 0 => 0
  | k + 1 => read_offset file k + file.read k

/-- Every call of `read` made while bytes are missing returns between `1` and the number of
bytes still missing. -/
def reads_partial (file : BpfFile) : Prop :=
  ∀ k, read_offset file k < file.size →
    1 ≤ file.read k ∧ file.read k ≤ file.size - read_offset file k

/-- Some call of `read` returns `0` or a negative value before `size` bytes are read, the
calls before it having returned positive values. -/
def read_error (file : BpfFile) : Prop :=
  ∃ k, (∀ i, i < k → 0 < file.read i) ∧ read_offset file k < file.size ∧ file.read k ≤ 0

/-! ## Concrete inputs -/

/-- The value of `sizeof(struct sock_filter)`: `__u16 code; __u8 jt; __u8 jf; __u32 k`. -/
def sizeof_sock_filter : Nat := 8

/-- A filter file of `size` bytes, the byte at offset `i` being `i % 256`, that opens as
descriptor `3` and whose `k`-th `read` returns `read k`. -/
def filter_file (size : Int) (read : Nat → Int) : BpfFile :=
  { open_fd := 3, size := size, malloc := some 500, content := fun i => i % 256, read := read }

/-- An answer of the system in which the allocations succeed, for the given filter file. -/
def jail_os (file : BpfFile) : JailOs :=
  { calloc := true, minijail_new := some 900, file := file }

/-- A file of two instructions (`16` bytes) that is read in two parts, `10` and `6` bytes. -/
def file16 : BpfFile := filter_file 16 fun k => if k = 0 then 10 else 6

/-- A file of `12` bytes, which is not a multiple of the instruction size, read at once. -/
def file12 : BpfFile := filter_file 12 fun _ => 12

/-- A file of `65536` instructions (`524288` bytes) that is read at once. -/
def file_65536_instructions : BpfFile := filter_file 524288 fun _ => 524288


/-- A jail with the quota `2` and no workers, as the process backend constructs it. -/
def jail2 : render_worker_jail :=
  { max_worker_count := 2, minijail := none, workers := [], worker_count := 0 }

/-- A jail with the quota `2` that holds the record at address `100`. -/
def jail2_with_100 : render_worker_jail :=
  { max_worker_count := 2, minijail := none, workers := [100], worker_count := 1 }

/-- A jail with the quota `2` that holds the records at `101` and `100`: it is at its quota. -/
def jail2_full : render_worker_jail :=
  { max_worker_count := 2, minijail := none, workers := [101, 100], worker_count := 2 }

/-- A jail with the quota `2` that holds the record at `101` only. -/
def jail2_with_101 : render_worker_jail :=
  { max_worker_count := 2, minijail := none, workers := [101], worker_count := 1 }

/-- A jail with the quota `2` that holds the records at `102` and `101`. -/
def jail2_refilled : render_worker_jail :=
  { max_worker_count := 2, minijail := none, workers := [102, 101], worker_count := 2 }

/-- An answer of the system in which every allocation and spawn primitive succeeds: the record
is placed at `a`, the new unit gets the identity `id`. -/
def os_spawned (a : Addr) (id : Int) : SpawnOs :=
  { calloc := some a, fork := id, thrd_create := thrd_result.thrd_success, thread := id,
    minijail_new := some 900, minijail_copy_jail := 0, minijail_fork := id }

/-- A `render_worker_create` call with the entry routine `7` and a payload of three bytes. -/
def req_spawned (a : Addr) (id : Int) : CreateReq :=
  { thread_func := 7, thread_data := [1, 2, 3], thread_data_size := 3, os := os_spawned a id }

/-- The scenario with the quota `2`: create A, create B, create C (refused), destroy A,
create C. -/
def scenario_ops : List JailOp :=
  [JailOp.create (req_spawned 100 41), JailOp.create (req_spawned 101 42),
    JailOp.create (req_spawned 102 43), JailOp.destroy 100, JailOp.create (req_spawned 102 43)]

/-- An answer of the system in which `fork` fails. -/
def os_fork_fails : SpawnOs := { os_spawned 100 41 with fork := -1 }

/-- A record of the process backend with pid `41`, not reaped. -/
def worker41 : render_worker := { thread := 0, pid := 41, reaped := false, thread_data := [1, 2, 3] }

/-- The answer of `waitid` that reports the termination of the process `pid`. -/
def os_exited (pid : Int) : WaitOs :=
  { waitid_ret := 0, si_pid := some pid, thrd_join := thrd_result.thrd_success }

/-! ## Theorems -/

/-! ### Arithmetic of `int` -/

theorem wrap_int_id (x : Int) (h1 : INT_MIN ≤ x) (h2 : x ≤ INT_MAX) : wrap_int x = x := by
  unfold wrap_int
  unfold INT_MIN at h1
  unfold INT_MAX at h2
  omega

/-! ### The spawn block -/

theorem spawn_ok_of_succeeds (b : Backend) (J : render_worker_jail) (f : FnPtr)
    (w : render_worker) (os : SpawnOs) (hs : spawn_succeeds b os = true) :
    (spawn b J f w os).2.1 = true := by
  cases b with
  | process =>
    simp only [spawn_succeeds, Bool.and_eq_true, decide_eq_true_eq] at hs
    simp [spawn, hs.2]
  | thread =>
    simp only [spawn_succeeds, Bool.and_eq_true, decide_eq_true_eq] at hs
    simp [spawn, hs.2]
  | minijail =>
    simp only [spawn_succeeds, Bool.and_eq_true, decide_eq_true_eq] at hs
    obtain ⟨_, ⟨hn, hc⟩, hf⟩ := hs
    obtain ⟨m, hm⟩ := Option.isSome_iff_exists.mp hn
    simp [spawn, fork_minijail, hm, hc, hf]

theorem spawn_not_ok_of_fails (b : Backend) (J : render_worker_jail) (f : FnPtr)
    (w : render_worker) (os : SpawnOs) (hs : spawn_fails b os = true) :
    (spawn b J f w os).2.1 = false := by
  cases b with
  | process =>
    simp only [spawn_fails, decide_eq_true_eq] at hs
    simp [spawn, hs]
  | thread =>
    simp only [spawn_fails, decide_eq_true_eq] at hs
    simp [spawn, hs]
  | minijail =>
    simp only [spawn_fails, Bool.or_eq_true, decide_eq_true_eq] at hs
    cases hm : os.minijail_new with
    | none => simp [spawn, fork_minijail, hm]
    | some m =>
      by_cases hc : os.minijail_copy_jail = 0
      · have hf : os.minijail_fork < 0 := by
          rcases hs with (h | h) | h
          · simp [hm] at h
          · exact absurd hc h
          · exact h
        simp [spawn, fork_minijail, hm, hc, hf]
      · simp [spawn, fork_minijail, hm, hc]

/-! ### `render_worker_create` -/

theorem create_at_quota (b : Backend) (W : World) (j : Nat) (J : render_worker_jail)
    (r : CreateReq) (hj : W[j]? = some J) (hq : J.max_worker_count ≤ J.worker_count) :
    create_call b j W r =
      Outcome.ret { ret := none, world := W, calls := [OsCall.render_log] } := by
  simp [create_call, render_worker_create, hj, hq]

theorem create_below_quota (b : Backend) (W : World) (j : Nat) (J : render_worker_jail)
    (r : CreateReq) (a : Addr) (hj : W[j]? = some J)
    (hq : J.worker_count < J.max_worker_count) (ha : r.os.calloc = some a)
    (hs : spawn_succeeds b r.os = true) :
    create_call b j W r =
      Outcome.ret
        { ret := some (a,
            (spawn b J r.thread_func (fresh_worker r.thread_data r.thread_data_size) r.os).1),
          world := W.set j (render_worker_jail_add_worker J a),
          calls := OsCall.calloc_worker r.thread_data_size ::
            (spawn b J r.thread_func (fresh_worker r.thread_data r.thread_data_size) r.os).2.2 } := by
  have hok := spawn_ok_of_succeeds b J r.thread_func
    (fresh_worker r.thread_data r.thread_data_size) r.os hs
  simp only [create_call, render_worker_create, hj, ha, not_le.mpr hq, ge_iff_le, if_false]
  rw [hok]
  simp

theorem create_spawn_fails (b : Backend) (W : World) (j : Nat) (J : render_worker_jail)
    (r : CreateReq) (hj : W[j]? = some J) (hs : spawn_fails b r.os = true) :
    ∃ c, create_call b j W r = Outcome.ret { ret := none, world := W, calls := c } := by
  have hok := spawn_not_ok_of_fails b J r.thread_func
    (fresh_worker r.thread_data r.thread_data_size) r.os hs
  by_cases hq : J.max_worker_count ≤ J.worker_count
  · exact ⟨_, create_at_quota b W j J r hj hq⟩
  · cases ha : r.os.calloc with
    | none =>
      simp only [create_call, render_worker_create, hj, ha, hq, ge_iff_le, if_false]
      exact ⟨_, rfl⟩
    | some a =>
      simp only [create_call, render_worker_create, hj, ha, hq, ge_iff_le, if_false]
      rw [hok]
      exact ⟨_, rfl⟩

/-! ### `render_worker_jail_create` -/

theorem jail_create_fields (b : Backend) (S : Nat) (N : Int)
    (sf : render_worker_jail_seccomp_filter) (path : String) (os : JailOs)
    (J : render_worker_jail) (hJ : (render_worker_jail_create b S N sf path os).1 = some J) :
    J.max_worker_count = N ∧ J.workers = [] ∧ J.worker_count = 0 := by
  unfold render_worker_jail_create at hJ
  cases hc : os.calloc with
  | false => simp [hc] at hJ
  | true =>
    simp only [hc, Bool.true_eq_false, if_false] at hJ
    cases b with
    | minijail =>
      simp only at hJ
      rcases hm : create_minijail S sf path os with ⟨m, calls⟩
      rw [hm] at hJ
      cases m with
      | none => simp at hJ
      | some m =>
        simp only [Option.some.injEq] at hJ
        subst hJ
        simp [list_inithead]
    | process =>
      simp only at hJ
      by_cases hsf : sf = render_worker_jail_seccomp_filter.NONE
      · simp only [hsf, ne_eq, not_true_eq_false, if_false, Option.some.injEq] at hJ
        subst hJ
        simp [list_inithead]
      · simp [hsf] at hJ
    | thread =>
      simp only at hJ
      by_cases hsf : sf = render_worker_jail_seccomp_filter.NONE
      · simp only [hsf, ne_eq, not_true_eq_false, if_false, Option.some.injEq] at hJ
        subst hJ
        simp [list_inithead]
      · simp [hsf] at hJ

/-! ### Filling a jail up to its quota -/

theorem create_calls_fill (b : Backend) (j : Nat) :
    ∀ (reqs : List CreateReq) (W : World) (J : render_worker_jail),
      W[j]? = some J → 0 ≤ J.worker_count →
      J.worker_count + (reqs.length : Int) ≤ J.max_worker_count →
      J.max_worker_count ≤ INT_MAX →
      (∀ r ∈ reqs, spawn_succeeds b r.os = true) →
      ∃ ws W' J', create_calls b j W reqs = Outcome.ret (ws, W') ∧
        ws.length = reqs.length ∧ (∀ x ∈ ws, x.isSome = true) ∧
        W'[j]? = some J' ∧ J'.max_worker_count = J.max_worker_count ∧
        J'.worker_count = J.worker_count + (reqs.length : Int) ∧
        J'.workers = (ws.filterMap fun x => x.map Prod.fst).reverse ++ J.workers := by
  intro reqs
  induction reqs with
  | nil =>
    intro W J hj _ _ _ _
    exact ⟨[], W, J, rfl, rfl, by simp, hj, rfl, by simp, by simp⟩
  | cons r rs ih =>
    intro W J hj h0 hq hmax hok
    have hlen : ((r :: rs).length : Int) = (rs.length : Int) + 1 := by simp
    rw [hlen] at hq
    have hlt : J.worker_count < J.max_worker_count := by omega
    have hs : spawn_succeeds b r.os = true := hok r (List.mem_cons_self _ _)
    have hc : r.os.calloc.isSome = true := by
      simp only [spawn_succeeds, Bool.and_eq_true] at hs
      exact hs.1
    obtain ⟨a, ha⟩ := Option.isSome_iff_exists.mp hc
    have hcreate := create_below_quota b W j J r a hj hlt ha hs
    have hjlt : j < W.length := by
      rcases List.getElem?_eq_some.mp hj with ⟨h, _⟩
      exact h
    have hw : wrap_int (J.worker_count + 1) = J.worker_count + 1 :=
      wrap_int_id _ (by unfold INT_MIN; omega) (by omega)
    have hj1 : (W.set j (render_worker_jail_add_worker J a))[j]? =
        some (render_worker_jail_add_worker J a) := List.getElem?_set_self hjlt
    obtain ⟨ws, W', J', hrun, hl, hsome, hj', hm', hc', hw'⟩ :=
      ih (W.set j (render_worker_jail_add_worker J a)) (render_worker_jail_add_worker J a) hj1
        (by simp only [render_worker_jail_add_worker, hw]; omega)
        (by simp only [render_worker_jail_add_worker, hw]; omega)
        (by simpa [render_worker_jail_add_worker] using hmax)
        (fun x hx => hok x (List.mem_cons_of_mem _ hx))
    refine ⟨some (a, (spawn b J r.thread_func (fresh_worker r.thread_data r.thread_data_size)
      r.os).1) :: ws, W', J', ?_, by simp [hl], ?_, hj', ?_, ?_, ?_⟩
    · simp only [create_calls, hcreate, hrun]
    · intro x hx
      rcases List.mem_cons.mp hx with h | h
      · subst h
        rfl
      · exact hsome x h
    · simpa [render_worker_jail_add_worker] using hm'
    · rw [hc']
      simp only [render_worker_jail_add_worker, hw]
      omega
    · rw [hw']
      simp [render_worker_jail_add_worker, list_add]

/-- C1: in a jail that `render_worker_jail_create` made with the quota `N` (an `int`; the
`N` calls below make it `0 ≤ N`, so every `1 ≤ N` is covered), when allocation and spawn
succeed on every call, the first `N` calls of `render_worker_create` each return a worker,
these are the registered workers, and one more call, whatever the system would answer,
returns `NULL` and leaves the world (the worker count and the registry of the jail
included) as it was. -/
theorem render_worker_create_quota (b : Backend) (S : Nat) (N : Int)
    (sf : render_worker_jail_seccomp_filter) (path : String) (jos : JailOs)
    (J : render_worker_jail) (W : World) (j : Nat) (reqs : List CreateReq) (extra : CreateReq)
    (hmax : N ≤ INT_MAX)
    (hJ : (render_worker_jail_create b S N sf path jos).1 = some J)
    (hj : W[j]? = some J) (hlen : (reqs.length : Int) = N)
    (hok : ∀ r ∈ reqs, spawn_succeeds b r.os = true) :
    ∃ ws W' J', create_calls b j W reqs = Outcome.ret (ws, W') ∧
      ws.length = reqs.length ∧ (∀ x ∈ ws, x.isSome = true) ∧
      W'[j]? = some J' ∧ J'.worker_count = N ∧
      J'.workers = (ws.filterMap fun x => x.map Prod.fst).reverse ∧
      render_worker_create b W' j extra.thread_func extra.thread_data extra.thread_data_size
          extra.os =
        Outcome.ret { ret := none, world := W', calls := [OsCall.render_log] } := by
  obtain ⟨hm, hw, hc⟩ := jail_create_fields b S N sf path jos J hJ
  obtain ⟨ws, W', J', hrun, hl, hsome, hj', hm', hc', hw'⟩ :=
    create_calls_fill b j reqs W J hj (by omega) (by omega) (by omega) hok
  refine ⟨ws, W', J', hrun, hl, hsome, hj', by omega, by simpa [hw] using hw', ?_⟩
  exact create_at_quota b W' j J' extra hj' (by omega)

/-- C7: below the quota, when the spawn primitive fails (`fork` or `minijail_fork` returns
a negative pid, `thrd_create` does not return `thrd_success`, or the sandbox context cannot
be derived from the template), `render_worker_create` returns `NULL` and leaves the world
as it was: no worker is registered and `worker_count` and `max_worker_count` keep their
values; the record, when it was allocated, is freed. -/
theorem render_worker_create_spawn_failure (b : Backend) (W : World) (j : Nat)
    (J : render_worker_jail) (thread_func : FnPtr) (thread_data : List Byte)
    (thread_data_size : Nat) (os : SpawnOs) (hj : W[j]? = some J)
    (hq : J.worker_count < J.max_worker_count) (hs : spawn_fails b os = true) :
    render_worker_create b W j thread_func thread_data thread_data_size os =
      Outcome.ret
        { ret := none, world := W,
          calls :=
            match os.calloc with
            | none => [OsCall.calloc_worker thread_data_size]
            | some a =>
              OsCall.calloc_worker thread_data_size ::
                (spawn b J thread_func (fresh_worker thread_data thread_data_size) os).2.2 ++
                  [OsCall.free a] } := by
  have hok := spawn_not_ok_of_fails b J thread_func
    (fresh_worker thread_data thread_data_size) os hs
  cases ha : os.calloc with
  | none => simp [render_worker_create, hj, ha, not_le.mpr hq]
  | some a =>
    simp only [render_worker_create, hj, ha, not_le.mpr hq, ge_iff_le, if_false]
    rw [hok]
    simp

/-! ### `render_worker_destroy` -/

theorem list_del_getElem? (W : World) (w : Addr) (j : Nat) :
    (list_del W w)[j]? =
      (W[j]?).map fun J => { J with workers := J.workers.erase w } := by
  simp [list_del]

theorem is_linked_of_mem (W : World) (j : Nat) (J : render_worker_jail) (w : Addr)
    (hj : W[j]? = some J) (hw : w ∈ J.workers) : is_linked W w = true := by
  simp only [is_linked, List.any_eq_true]
  exact ⟨J, List.getElem?_mem hj, by simpa using hw⟩

theorem destroy_of_mem (W : World) (j : Nat) (J : render_worker_jail) (w : Addr)
    (hj : W[j]? = some J) (hw : w ∈ J.workers) :
    render_worker_destroy W j w =
      Outcome.ret ((list_del W w).set j
        { J with workers := J.workers.erase w, worker_count := wrap_int (J.worker_count - 1) },
        [OsCall.free w]) := by
  simp [render_worker_destroy, render_worker_jail_remove_worker, is_linked_of_mem W j J w hj hw,
    list_del_getElem?, hj]

theorem getElem?_set_list_del (W : World) (j : Nat) (J J1 : render_worker_jail) (w : Addr)
    (hj : W[j]? = some J) : ((list_del W w).set j J1)[j]? = some J1 := by
  have hjlt : j < (list_del W w).length := by
    rcases List.getElem?_eq_some.mp hj with ⟨h, _⟩
    simpa [list_del] using h
  exact List.getElem?_set_self hjlt

theorem invariant_add (J : render_worker_jail) (a : Addr) (hinv : jail_invariant J)
    (hmax : J.max_worker_count ≤ INT_MAX) (hq : J.worker_count < J.max_worker_count) :
    jail_invariant (render_worker_jail_add_worker J a) := by
  obtain ⟨h1, h2, _⟩ := hinv
  have hw : wrap_int (J.worker_count + 1) = J.worker_count + 1 :=
    wrap_int_id _ (by unfold INT_MIN; omega) (by omega)
  simp only [jail_invariant, render_worker_jail_add_worker, hw, list_add, List.length_cons]
  push_cast
  omega

theorem invariant_remove (J : render_worker_jail) (w : Addr) (hinv : jail_invariant J)
    (hmax : J.max_worker_count ≤ INT_MAX) (hw : w ∈ J.workers) :
    jail_invariant { J with workers := J.workers.erase w,
                            worker_count := wrap_int (J.worker_count - 1) } ∧
      wrap_int (J.worker_count - 1) = J.worker_count - 1 := by
  obtain ⟨h1, h2, h3⟩ := hinv
  have hpos : 0 < J.workers.length := List.length_pos_of_mem hw
  have hwrap : wrap_int (J.worker_count - 1) = J.worker_count - 1 :=
    wrap_int_id _ (by unfold INT_MIN; omega) (by omega)
  refine ⟨?_, hwrap⟩
  simp only [jail_invariant, hwrap, List.length_erase_of_mem hw]
  omega

theorem create_call_cases (b : Backend) (W : World) (j : Nat) (J : render_worker_jail)
    (r : CreateReq) (hj : W[j]? = some J) :
    ∃ res, create_call b j W r = Outcome.ret res ∧
      (res.world = W ∨
        (J.worker_count < J.max_worker_count ∧
          ∃ a, r.os.calloc = some a ∧
            res.world = W.set j (render_worker_jail_add_worker J a))) := by
  by_cases hq : J.max_worker_count ≤ J.worker_count
  · exact ⟨_, create_at_quota b W j J r hj hq, Or.inl rfl⟩
  · cases ha : r.os.calloc with
    | none =>
      simp only [create_call, render_worker_create, hj, ha, hq, ge_iff_le, if_false]
      exact ⟨_, rfl, Or.inl rfl⟩
    | some a =>
      simp only [create_call, render_worker_create, hj, ha, hq, ge_iff_le, if_false]
      cases hok : (spawn b J r.thread_func
          (fresh_worker r.thread_data r.thread_data_size) r.os).2.1 with
      | false => exact ⟨_, by simp [hok]; rfl, Or.inl rfl⟩
      | true => exact ⟨_, by simp [hok]; rfl, Or.inr ⟨by omega, a, rfl, rfl⟩⟩

theorem jail_run_invariant (b : Backend) (j : Nat) :
    ∀ (ops : List JailOp) (W : World) (J : render_worker_jail),
      W[j]? = some J → jail_invariant J → J.max_worker_count ≤ INT_MAX →
      destroys_registered b j W ops = true →
      ∃ W' J', jail_run b j W ops = Outcome.ret W' ∧ W'[j]? = some J' ∧ jail_invariant J' ∧
        J'.max_worker_count = J.max_worker_count := by
  intro ops
  induction ops with
  | nil =>
    intro W J hj hinv _ _
    exact ⟨W, J, rfl, hj, hinv, rfl⟩
  | cons op ops ih =>
    intro W J hj hinv hmax hadm
    simp only [destroys_registered, Bool.and_eq_true] at hadm
    obtain ⟨hpre, hrest⟩ := hadm
    cases op with
    | create r =>
      obtain ⟨res, hres, hworld⟩ := create_call_cases b W j J r hj
      have hstep : jail_step b j W (JailOp.create r) = Outcome.ret res.world := by
        simp [jail_step, hres]
      rw [hstep] at hrest
      simp only [jail_run, hstep]
      rcases hworld with hsame | ⟨hq, a, _, hadd⟩
      · rw [hsame] at hrest ⊢
        exact ih W J hj hinv hmax hrest
      · rw [hadd] at hrest ⊢
        have hjlt : j < W.length := by
          rcases List.getElem?_eq_some.mp hj with ⟨h, _⟩
          exact h
        obtain ⟨W', J', h1, h2, h3, h4⟩ :=
          ih (W.set j (render_worker_jail_add_worker J a)) (render_worker_jail_add_worker J a)
            (List.getElem?_set_self hjlt) (invariant_add J a hinv hmax hq)
            (by simpa [render_worker_jail_add_worker] using hmax) hrest
        exact ⟨W', J', h1, h2, h3, by simpa [render_worker_jail_add_worker] using h4⟩
    | destroy w =>
      have hw : w ∈ J.workers := by
        simpa [registered, hj] using hpre
      have hd := destroy_of_mem W j J w hj hw
      have hstep : jail_step b j W (JailOp.destroy w) =
          Outcome.ret ((list_del W w).set j
            { J with workers := J.workers.erase w,
                     worker_count := wrap_int (J.worker_count - 1) }) := by
        simp [jail_step, hd]
      rw [hstep] at hrest
      simp only [jail_run, hstep]
      obtain ⟨W', J', h1, h2, h3, h4⟩ :=
        ih _ _ (getElem?_set_list_del W j J _ w hj) (invariant_remove J w hinv hmax hw).1
          hmax hrest
      exact ⟨W', J', h1, h2, h3, h4⟩

/-- The registry never holds a record twice: calls that allocate fresh records and destroy
registered ones keep it free of duplicates. -/
theorem jail_run_nodup (b : Backend) (j : Nat) :
    ∀ (ops : List JailOp) (W : World) (J : render_worker_jail),
      W[j]? = some J → J.workers.Nodup → destroys_registered b j W ops = true →
      allocs_fresh b j W ops = true →
      ∃ W' J', jail_run b j W ops = Outcome.ret W' ∧ W'[j]? = some J' ∧ J'.workers.Nodup := by
  intro ops
  induction ops with
  | nil =>
    intro W J hj hnd _ _
    exact ⟨W, J, rfl, hj, hnd⟩
  | cons op ops ih =>
    intro W J hj hnd hadm hfresh
    simp only [destroys_registered, Bool.and_eq_true] at hadm
    simp only [allocs_fresh, Bool.and_eq_true] at hfresh
    obtain ⟨hpre, hrest⟩ := hadm
    obtain ⟨hfr, hfrest⟩ := hfresh
    cases op with
    | create r =>
      obtain ⟨res, hres, hworld⟩ := create_call_cases b W j J r hj
      have hstep : jail_step b j W (JailOp.create r) = Outcome.ret res.world := by
        simp [jail_step, hres]
      rw [hstep] at hrest hfrest
      simp only [jail_run, hstep]
      rcases hworld with hsame | ⟨_, a, ha, hadd⟩
      · rw [hsame] at hrest hfrest ⊢
        exact ih W J hj hnd hrest hfrest
      · rw [hadd] at hrest hfrest ⊢
        have hjlt : j < W.length := by
          rcases List.getElem?_eq_some.mp hj with ⟨h, _⟩
          exact h
        have hnew : a ∉ J.workers := by
          simpa [ha, registered, hj] using hfr
        exact ih (W.set j (render_worker_jail_add_worker J a))
          (render_worker_jail_add_worker J a) (List.getElem?_set_self hjlt)
          (by simpa [render_worker_jail_add_worker, list_add] using And.intro hnew hnd)
          hrest hfrest
    | destroy w =>
      have hw : w ∈ J.workers := by
        simpa [registered, hj] using hpre
      have hd := destroy_of_mem W j J w hj hw
      have hstep : jail_step b j W (JailOp.destroy w) =
          Outcome.ret ((list_del W w).set j
            { J with workers := J.workers.erase w,
                     worker_count := wrap_int (J.worker_count - 1) }) := by
        simp [jail_step, hd]
      rw [hstep] at hrest hfrest
      simp only [jail_run, hstep]
      exact ih _ _ (getElem?_set_list_del W j J _ w hj) (List.Nodup.erase w hnd) hrest hfrest

/-- C2: in a jail that `render_worker_jail_create` made with a positive quota (an `int`),
every finite sequence of `render_worker_create` calls, succeeding or failing, and of
`render_worker_destroy` calls on workers registered in the jail at the time of the call runs
to its end, and after it `worker_count` is the size of the registry and
`0 ≤ worker_count ≤ max_worker_count`, the quota being the one given at construction. -/
theorem jail_invariant_after_calls (b : Backend) (S : Nat) (N : Int)
    (sf : render_worker_jail_seccomp_filter) (path : String) (jos : JailOs)
    (J : render_worker_jail) (W : World) (j : Nat) (ops : List JailOp)
    (hN : 0 < N) (hmax : N ≤ INT_MAX)
    (hJ : (render_worker_jail_create b S N sf path jos).1 = some J)
    (hj : W[j]? = some J) (hadm : destroys_registered b j W ops = true) :
    ∃ W' J', jail_run b j W ops = Outcome.ret W' ∧ W'[j]? = some J' ∧
      J'.worker_count = (J'.workers.length : Int) ∧ 0 ≤ J'.worker_count ∧
      J'.worker_count ≤ J'.max_worker_count ∧ J'.max_worker_count = N := by
  obtain ⟨hm, hw, hc⟩ := jail_create_fields b S N sf path jos J hJ
  have hinv : jail_invariant J := by
    simp only [jail_invariant, hw, hc, hm, List.length_nil]
    omega
  obtain ⟨W', J', h1, h2, h3, h4⟩ :=
    jail_run_invariant b j ops W J hj hinv (by omega) hadm
  exact ⟨W', J', h1, h2, h3.1, h3.2.1, h3.2.2, by omega⟩

/-- C8: `render_worker_destroy` on a worker `w` registered in the jail (whose registry holds
no record twice and obeys the jail invariant) returns, removes `w` and nothing else from the
registry, lowers `worker_count` by exactly one, keeps the quota and frees the record; jails
that do not hold `w` are left alone.  When the jail was at its quota, so that
`render_worker_create` failed, the next `render_worker_create` whose allocation and spawn
succeed returns a worker, registers it, and the registry is back at `max_worker_count`
entries. -/
theorem render_worker_destroy_registered (b : Backend) (W : World) (j : Nat)
    (J : render_worker_jail) (w : Addr) (hj : W[j]? = some J) (hinv : jail_invariant J)
    (hmax : J.max_worker_count ≤ INT_MAX) (hnd : J.workers.Nodup) (hw : w ∈ J.workers) :
    ∃ W1 J1, render_worker_destroy W j w = Outcome.ret (W1, [OsCall.free w]) ∧
      W1[j]? = some J1 ∧ w ∉ J1.workers ∧
      (∀ x, x ≠ w → (x ∈ J1.workers ↔ x ∈ J.workers)) ∧
      J1.worker_count = J.worker_count - 1 ∧
      J1.max_worker_count = J.max_worker_count ∧
      (∀ k Jk, k ≠ j → W[k]? = some Jk → w ∉ Jk.workers → W1[k]? = some Jk) ∧
      (J.max_worker_count ≤ J.worker_count →
        (∀ r, create_call b j W r =
          Outcome.ret { ret := none, world := W, calls := [OsCall.render_log] }) ∧
        ∀ r a, r.os.calloc = some a → spawn_succeeds b r.os = true →
          ∃ res J2, create_call b j W1 r = Outcome.ret res ∧
            (res.ret.map Prod.fst) = some a ∧ res.world[j]? = some J2 ∧
            J2.workers = a :: J.workers.erase w ∧
            (J2.workers.length : Int) = J2.max_worker_count ∧
            J2.worker_count = J2.max_worker_count ∧
            J2.max_worker_count = J.max_worker_count) := by
  obtain ⟨hrm, hwrap⟩ := invariant_remove J w hinv hmax hw
  have hj1 := getElem?_set_list_del W j J
    { J with workers := J.workers.erase w, worker_count := wrap_int (J.worker_count - 1) } w hj
  refine ⟨_, _, destroy_of_mem W j J w hj hw, hj1, ?_, ?_, ?_, rfl, ?_, ?_⟩
  · exact List.Nodup.not_mem_erase hnd
  · intro x hx
    exact List.mem_erase_of_ne hx
  · exact hwrap
  · intro k Jk hk hWk hnot
    rw [List.getElem?_set_ne (Ne.symm hk), list_del_getElem?, hWk]
    simp [List.erase_of_not_mem hnot]
  · intro hq
    refine ⟨fun r => create_at_quota b W j J r hj hq, ?_⟩
    intro r a ha hs
    have hle : J.worker_count ≤ J.max_worker_count := hinv.2.2
    have hlt : (wrap_int (J.worker_count - 1)) < J.max_worker_count := by
      rw [hwrap]
      omega
    have hc := create_below_quota b _ j _ r a hj1 hlt ha hs
    have hjlt : j < (list_del W w).length := by
      rcases List.getElem?_eq_some.mp hj with ⟨h, _⟩
      simpa [list_del] using h
    have hadd := invariant_add _ a hrm hmax hlt
    obtain ⟨h1, h2, h3⟩ := hinv
    obtain ⟨g1, g2, g3⟩ := hadd
    have hcount : (render_worker_jail_add_worker
        { J with workers := J.workers.erase w,
                 worker_count := wrap_int (J.worker_count - 1) } a).worker_count =
        J.max_worker_count := by
      have hw1 : wrap_int (J.worker_count - 1 + 1) = J.worker_count - 1 + 1 :=
        wrap_int_id _ (by unfold INT_MIN; omega) (by omega)
      simp only [render_worker_jail_add_worker, hwrap, hw1]
      omega
    refine ⟨_, _, hc, rfl, ?_, rfl, ?_, hcount, rfl⟩
    · simp only [List.set_set]
      exact List.getElem?_set_self hjlt
    · rw [← g1, hcount]
      rfl

/-! ### `render_worker_reap` and `render_worker_kill` -/

/-- C3: under the two process backends, for a worker that is not reaped and is observed
from outside (`pid > 0`) and for either value of `wait`, `render_worker_reap` makes one
`waitid` call and returns; it returns `true` and sets `reaped` exactly when `waitid` returns
`0` and stores the pid of the worker into `siginfo.si_pid`.  In every other case (an error,
another pid, or `siginfo` left at `0`) it returns `false` and leaves the record as it was,
`reaped` still `false`. -/
theorem render_worker_reap_attribution (b : Backend) (cur : Int) (w : render_worker)
    (wait : Bool) (os : WaitOs) (hb : b ≠ Backend.thread) (hr : w.reaped = false)
    (hpid : 0 < w.pid) :
    ∃ ok, render_worker_reap b cur w wait os =
        Outcome.ret { ret := ok, worker := { w with reaped := ok },
                      calls := [OsCall.waitid_P_PID w.pid true (!wait)] } ∧
      (ok = true ↔ os.waitid_ret = 0 ∧ os.si_pid = some w.pid) ∧
      (ok = false → ({ w with reaped := ok } : render_worker) = w) := by
  have hrec : render_worker_is_record b cur w = true := by
    cases b with
    | thread => exact absurd rfl hb
    | process => simp [render_worker_is_record, hpid]
    | minijail => simp [render_worker_is_record, hpid]
  refine ⟨decide (os.waitid_ret = 0 ∧ os.si_pid.getD 0 = w.pid), ?_, ?_, ?_⟩
  · cases b with
    | thread => exact absurd rfl hb
    | process => simp [render_worker_reap, hrec, hr]
    | minijail => simp [render_worker_reap, hrec, hr]
  · rw [decide_eq_true_eq]
    constructor
    · rintro ⟨h1, h2⟩
      refine ⟨h1, ?_⟩
      cases hs : os.si_pid with
      | none =>
        rw [hs] at h2
        simp only [Option.getD_none] at h2
        omega
      | some p =>
        rw [hs] at h2
        simpa using h2
    · rintro ⟨h1, h2⟩
      exact ⟨h1, by simp [h2]⟩
  · intro h
    rw [h, ← hr]

theorem reap_of_reaped (b : Backend) (cur : Int) (w : render_worker) (wait : Bool)
    (os : WaitOs) (hr : w.reaped = true) (hrec : render_worker_is_record b cur w = true) :
    render_worker_reap b cur w wait os =
      Outcome.ret { ret := true, worker := w, calls := [] } := by
  simp [render_worker_reap, hrec, hr]

theorem worker_step_of_reaped (b : Backend) (w : render_worker) (op : WorkerOp)
    (hr : w.reaped = true) :
    worker_step b w op =
      if render_worker_is_record b op.cur w = true then Outcome.ret w else Outcome.abort := by
  cases op with
  | kill cur =>
    cases hrec : render_worker_is_record b cur w <;> cases b <;>
      simp [worker_step, render_worker_kill, WorkerOp.cur, hrec]
  | reap cur wait os =>
    cases hrec : render_worker_is_record b cur w
    · simp [worker_step, render_worker_reap, WorkerOp.cur, hrec]
    · simp [worker_step, reap_of_reaped b cur w wait os hr hrec, WorkerOp.cur, hrec]

/-- C4: on a worker whose `reaped` flag is set and which is observed from outside, the
precondition `render_worker_reap` asserts, `render_worker_reap` returns `true` for either
value of `wait` and whatever the wait or join primitive would answer, calls no primitive at
all and leaves the record as it is.  No sequence of `render_worker_kill` and
`render_worker_reap` calls clears the flag: such a sequence either stops at a failed
assertion or ends with the same record, and it ends with the same record when every call
is made from outside. -/
theorem render_worker_reap_idempotent (b : Backend) (cur : Int) (w : render_worker)
    (wait : Bool) (os : WaitOs) (hr : w.reaped = true)
    (hrec : render_worker_is_record b cur w = true) :
    render_worker_reap b cur w wait os =
        Outcome.ret { ret := true, worker := w, calls := [] } ∧
      (∀ ops, worker_run b w ops = Outcome.abort ∨ worker_run b w ops = Outcome.ret w) ∧
      (∀ ops, (∀ op ∈ ops, render_worker_is_record b op.cur w = true) →
        worker_run b w ops = Outcome.ret w) := by
  refine ⟨reap_of_reaped b cur w wait os hr hrec, ?_, ?_⟩
  · intro ops
    induction ops with
    | nil => exact Or.inr rfl
    | cons op ops ih =>
      simp only [worker_run, worker_step_of_reaped b w op hr]
      by_cases h : render_worker_is_record b op.cur w = true
      · simpa [h] using ih
      · simp [h]
  · intro ops
    induction ops with
    | nil => intro _; rfl
    | cons op ops ih =>
      intro hall
      simp only [worker_run, worker_step_of_reaped b w op hr,
        hall op (List.mem_cons_self _ _), if_true]
      exact ih fun x hx => hall x (List.mem_cons_of_mem _ hx)

theorem reap_keeps_identity (b : Backend) (cur : Int) (w : render_worker) (wait : Bool)
    (os : WaitOs) (res : ReapRes) (hk : render_worker_reap b cur w wait os = Outcome.ret res) :
    res.worker.pid = w.pid ∧ res.worker.thread = w.thread ∧
      res.worker.thread_data = w.thread_data ∧
      render_worker_is_record b cur w = true := by
  unfold render_worker_reap at hk
  split_ifs at hk with h1 h2
  · cases hk
    exact ⟨rfl, rfl, rfl, by simpa using h1⟩
  · cases b <;>
      (cases hk
       exact ⟨rfl, rfl, rfl, by simpa using h1⟩)

/-- Under the two process backends a record with `reaped` set has a positive pid, whatever
calls were made on it since `render_worker_create` filled it in: there every caller of
`render_worker_reap` on such a record passes the assertion. -/
theorem reaped_record_has_pid (b : Backend) (hb : b ≠ Backend.thread) :
    ∀ (ops : List WorkerOp) (w w' : render_worker), (w.reaped = true → 0 < w.pid) →
      worker_run b w ops = Outcome.ret w' → w'.reaped = true → 0 < w'.pid := by
  intro ops
  induction ops with
  | nil =>
    intro w w' h hrun
    simp only [worker_run, Outcome.ret.injEq] at hrun
    subst hrun
    exact h
  | cons op ops ih =>
    intro w w' h hrun
    simp only [worker_run] at hrun
    cases hstep : worker_step b w op with
    | abort => simp [hstep] at hrun
    | undefined => simp [hstep] at hrun
    | ret w1 =>
      rw [hstep] at hrun
      refine ih w1 w' ?_ hrun
      cases op with
      | kill cur =>
        have : w1 = w := by
          simp only [worker_step] at hstep
          cases hk : render_worker_kill b cur w with
          | abort => simp [hk] at hstep
          | undefined => simp [hk] at hstep
          | ret c =>
            rw [hk] at hstep
            simpa using hstep.symm
        rw [this]
        exact h
      | reap cur wait os =>
        simp only [worker_step] at hstep
        cases hk : render_worker_reap b cur w wait os with
        | abort => simp [hk] at hstep
        | undefined => simp [hk] at hstep
        | ret res =>
          rw [hk] at hstep
          simp only [Outcome.ret.injEq] at hstep
          subst hstep
          intro _
          obtain ⟨hsame, _, _, hrec⟩ := reap_keeps_identity b cur w wait os res hk
          rw [hsame]
          cases b with
          | thread => exact absurd rfl hb
          | process => simpa [render_worker_is_record] using hrec
          | minijail => simpa [render_worker_is_record] using hrec

/-! ### The entry routine -/

theorem spawn_facts (b : Backend) (J : render_worker_jail) (f : FnPtr) (w0 : render_worker)
    (os : SpawnOs) :
    (spawn b J f w0 os).1.thread_data = w0.thread_data ∧
      (spawn b J f w0 os).1.reaped = w0.reaped ∧
      (b = Backend.thread →
        (spawn b J f w0 os).2.2 = [OsCall.thrd_create f w0.thread_data]) ∧
      (b ≠ Backend.thread →
        entry_invocations (spawn b J f w0 os).2.2 = [] ∧
          ((spawn b J f w0 os).2.1 = true → 0 ≤ (spawn b J f w0 os).1.pid)) := by
  cases b with
  | process => simp [spawn, entry_invocations, entry_invocation]
  | thread => simp [spawn]
  | minijail =>
    refine ⟨rfl, rfl, fun h => absurd h (by decide), fun _ => ⟨?_, ?_⟩⟩
    · cases hm : os.minijail_new with
      | none => simp [spawn, fork_minijail, hm, entry_invocations, entry_invocation]
      | some m =>
        by_cases hc : os.minijail_copy_jail = 0 <;>
          simp [spawn, fork_minijail, hm, hc, entry_invocations, entry_invocation]
    · simp [spawn]

theorem create_returns_worker (b : Backend) (W : World) (j : Nat) (f : FnPtr)
    (d : List Byte) (n : Nat) (os : SpawnOs) (res : CreateRes) (a : Addr) (w : render_worker)
    (h : render_worker_create b W j f d n os = Outcome.ret res) (hs : res.ret = some (a, w)) :
    ∃ J, W[j]? = some J ∧ os.calloc = some a ∧
      (spawn b J f (fresh_worker d n) os).2.1 = true ∧
      w = (spawn b J f (fresh_worker d n) os).1 ∧
      res.calls = OsCall.calloc_worker n :: (spawn b J f (fresh_worker d n) os).2.2 ∧
      res.world = W.set j (render_worker_jail_add_worker J a) := by
  unfold render_worker_create at h
  cases hj : W[j]? with
  | none => simp [hj] at h
  | some J =>
    simp only [hj] at h
    by_cases hq : J.worker_count ≥ J.max_worker_count
    · simp only [hq, if_true] at h
      cases h
      simp at hs
    · simp only [hq, if_false] at h
      cases ha : os.calloc with
      | none =>
        simp only [ha] at h
        cases h
        simp at hs
      | some a' =>
        simp only [ha] at h
        cases hok : (spawn b J f (fresh_worker d n) os).2.1 with
        | false =>
          rw [hok] at h
          simp only [if_true] at h
          cases h
          simp at hs
        | true =>
          rw [hok] at h
          simp only [Bool.true_eq_false, if_false] at h
          cases h
          simp only [Option.some.injEq, Prod.mk.injEq] at hs
          obtain ⟨h1, h2⟩ := hs
          subst h1
          exact ⟨J, rfl, rfl, hok, h2.symm, rfl, rfl⟩

/-- C5, as the code has it: a successful `render_worker_create` stores the first
`thread_data_size` bytes of the payload in the record.  Under the thread backend it hands
the entry routine and that stored copy to `thrd_create`, once, so that the new thread runs
the routine on the copy.  Under the two process backends it does not use the entry routine:
the trace holds no invocation of it, and the call returns in the new process as well, there
with pid `0`, for which `render_worker_is_record` is false. -/
theorem render_worker_create_entry (b : Backend) (W : World) (j : Nat) (f : FnPtr)
    (d : List Byte) (n : Nat) (os : SpawnOs) (res : CreateRes) (a : Addr) (w : render_worker)
    (cur : Int) (h : render_worker_create b W j f d n os = Outcome.ret res)
    (hs : res.ret = some (a, w)) :
    w.thread_data = d.take n ∧ w.reaped = false ∧
      (b = Backend.thread → entry_invocations res.calls = [(f, w.thread_data)]) ∧
      (b ≠ Backend.thread →
        entry_invocations res.calls = [] ∧ 0 ≤ w.pid ∧
          (render_worker_is_record b cur w = false ↔ w.pid = 0)) := by
  obtain ⟨J, _, _, hok, hw, hcalls, _⟩ := create_returns_worker b W j f d n os res a w h hs
  obtain ⟨f1, f2, f3, f4⟩ := spawn_facts b J f (fresh_worker d n) os
  have hdata : w.thread_data = d.take n := by
    rw [hw, f1]
    rfl
  refine ⟨hdata, by rw [hw, f2]; rfl, ?_, ?_⟩
  · intro hb
    rw [hcalls, f3 hb, hdata]
    simp [entry_invocations, entry_invocation, fresh_worker]
  · intro hb
    obtain ⟨g1, g2⟩ := f4 hb
    have hpid : 0 ≤ w.pid := by
      rw [hw]
      exact g2 hok
    refine ⟨?_, hpid, ?_⟩
    · rw [hcalls]
      simpa [entry_invocations, entry_invocation] using g1
    · cases b with
      | thread => exact absurd rfl hb
      | process =>
        simp only [render_worker_is_record, gt_iff_lt, decide_eq_false_iff_not, not_lt]
        omega
      | minijail =>
        simp only [render_worker_is_record, gt_iff_lt, decide_eq_false_iff_not, not_lt]
        omega

/-- C5, counterexample: under the subprocess backend a successful `render_worker_create`
with the entry routine `7` and the payload `[1, 2, 3]` calls `calloc` and `fork` only; no
call of the trace runs the entry routine, in the parent (pid `41`) or in the child (pid
`0`), so the claim fails for this backend. -/
theorem render_worker_create_process_no_entry :
    render_worker_create Backend.process [jail2] 0 7 [1, 2, 3] 3 (os_spawned 100 41) =
        Outcome.ret { ret := some (100, worker41), world := [jail2_with_100],
                      calls := [OsCall.calloc_worker 3, OsCall.fork] } ∧
      render_worker_create Backend.process [jail2] 0 7 [1, 2, 3] 3 (os_spawned 100 0) =
        Outcome.ret { ret := some (100, { worker41 with pid := 0 }), world := [jail2_with_100],
                      calls := [OsCall.calloc_worker 3, OsCall.fork] } ∧
      entry_invocations [OsCall.calloc_worker 3, OsCall.fork] = [] ∧
      ¬ ∀ (b : Backend) (W : World) (j : Nat) (f : FnPtr) (d : List Byte) (n : Nat)
          (os : SpawnOs) (res : CreateRes),
          render_worker_create b W j f d n os = Outcome.ret res → res.ret.isSome = true →
            entry_invocations res.calls = [(f, d.take n)] := by
  refine ⟨by decide, by decide, by decide, ?_⟩
  intro hall
  have h := hall Backend.process [jail2] 0 7 [1, 2, 3] 3 (os_spawned 100 41) _ rfl (by decide)
  revert h
  decide

/-! ### `render_worker_destroy` on a worker of another jail -/

/-- C9, as the code has it: `render_worker_destroy` makes no check that the worker is
registered in the jail it is given.  Called with the jail `j` on a worker that is registered
in another jail `k`, it returns: the record is unlinked from the registry of `k` and freed,
the `worker_count` of `j` is decremented (as a 32-bit `int`), and the registry of `j` and
the `worker_count` of `k` keep their values. -/
theorem render_worker_destroy_other_jail (W : World) (j k : Nat) (J K : render_worker_jail)
    (w : Addr) (hjk : j ≠ k) (hj : W[j]? = some J) (hk : W[k]? = some K)
    (hnot : w ∉ J.workers) (hw : w ∈ K.workers) :
    ∃ W1, render_worker_destroy W j w = Outcome.ret (W1, [OsCall.free w]) ∧
      W1[j]? = some { J with worker_count := wrap_int (J.worker_count - 1) } ∧
      W1[k]? = some { K with workers := K.workers.erase w } := by
  have hlink := is_linked_of_mem W k K w hk hw
  have hjlt : j < (list_del W w).length := by
    rcases List.getElem?_eq_some.mp hj with ⟨h, _⟩
    simpa [list_del] using h
  refine ⟨(list_del W w).set j { J with worker_count := wrap_int (J.worker_count - 1) },
    ?_, List.getElem?_set_self hjlt, ?_⟩
  · simp [render_worker_destroy, render_worker_jail_remove_worker, hlink, list_del_getElem?,
      hj, List.erase_of_not_mem hnot]
  · rw [List.getElem?_set_ne hjk, list_del_getElem?, hk]
    rfl

/-- C9, counterexample: with an empty jail `0` and a jail `1` that holds the record `100`,
`render_worker_destroy` called with jail `0` on the record `100`, which is not registered
there, returns instead of ending the program; the `worker_count` of jail `0` is then `-1`
and the registry of jail `1` has lost the record. -/
theorem render_worker_destroy_unregistered_returns :
    registered [jail2, jail2_with_100] 0 100 = false ∧
      render_worker_destroy [jail2, jail2_with_100] 0 100 =
        Outcome.ret ([{ jail2 with worker_count := -1 }, { jail2_with_100 with workers := [] }],
          [OsCall.free 100]) := by
  decide

/-! ### The read loop of `load_bpf_program` -/

theorem read_loop_done (file : BpfFile) (size : Int) (fuel k : Nat) (cur : Int)
    (data : List Byte) (h : ¬ cur < size) :
    read_loop file size fuel k cur data = ReadLoop.done cur data := by
  cases fuel <;> simp [read_loop, h]

theorem range_map_append (content : Nat → Byte) (a r : Nat) :
    (List.range a).map content ++ (List.range' a r).map content =
      (List.range (a + r)).map content := by
  rw [← List.map_append, List.range_eq_range', List.range_eq_range']
  congr 1
  have h := List.range'_append 0 a r 1
  simp only [Nat.one_mul, Nat.zero_add] at h
  rw [h, Nat.add_comm]

/-- The loop reads the whole file: when every `read` returns between `1` and the number of
missing bytes, the loop started with enough fuel ends with `cur == size` and a buffer that
holds the bytes of the file in file order. -/
theorem read_loop_complete (file : BpfFile) (hp : reads_partial file) :
    ∀ (fuel k : Nat) (cur : Int) (data : List Byte),
      cur = read_offset file k → 0 ≤ cur → cur ≤ file.size →
      (file.size - cur).toNat ≤ fuel → data = (List.range cur.toNat).map file.content →
      read_loop file file.size fuel k cur data =
        ReadLoop.done file.size ((List.range file.size.toNat).map file.content) := by
  intro fuel
  induction fuel with
  | zero =>
    intro k cur data _ _ hle hfuel hdata
    have hcs : cur = file.size := by omega
    rw [read_loop_done file file.size 0 k cur data (by omega), hdata, hcs]
  | succ fuel ih =>
    intro k cur data hcur h0 hle hfuel hdata
    by_cases hlt : cur < file.size
    · obtain ⟨h1, h2⟩ := hp k (by rw [← hcur]; exact hlt)
      rw [← hcur] at h2
      have hpos : ¬ file.read k ≤ 0 := by omega
      simp only [read_loop, hlt, hpos, if_true, if_false]
      apply ih (k + 1) (cur + file.read k)
      · simp only [read_offset, hcur]
      · omega
      · omega
      · omega
      · rw [hdata, range_map_append]
        congr 2
        omega
    · have hcs : cur = file.size := by omega
      rw [read_loop_done file file.size _ k cur data hlt, hdata, hcs]

theorem read_offset_le (file : BpfFile) (k0 : Nat) :
    ∀ d, (∀ i, k0 ≤ i → i < k0 + d → 0 < file.read i) →
      read_offset file k0 ≤ read_offset file (k0 + d) := by
  intro d
  induction d with
  | zero => intro _; exact le_refl _
  | succ d ih =>
    intro h
    have h1 := ih fun i hi hlt => h i hi (by omega)
    have h2 := h (k0 + d) (by omega) (by omega)
    have e : k0 + (d + 1) = (k0 + d) + 1 := by omega
    rw [e]
    simp only [read_offset]
    omega

/-- The loop fails at the first `read` that returns `0` or a negative value. -/
theorem read_loop_fail (file : BpfFile) :
    ∀ (d fuel k0 : Nat) (cur : Int) (data : List Byte),
      cur = read_offset file k0 → (file.size - cur).toNat ≤ fuel →
      (∀ i, k0 ≤ i → i < k0 + d → 0 < file.read i) →
      read_offset file (k0 + d) < file.size → file.read (k0 + d) ≤ 0 →
      read_loop file file.size fuel k0 cur data = ReadLoop.fail := by
  intro d
  induction d with
  | zero =>
    intro fuel k0 cur data hcur hfuel _ hlt hbad
    simp only [Nat.add_zero] at hlt hbad
    rw [← hcur] at hlt
    cases fuel with
    | zero => omega
    | succ fuel => simp [read_loop, hlt, hbad]
  | succ d ih =>
    intro fuel k0 cur data hcur hfuel hpos hlt hbad
    have hmono := read_offset_le file k0 (d + 1) hpos
    have hlt0 : cur < file.size := by omega
    have hr : 0 < file.read k0 := hpos k0 (le_refl _) (by omega)
    have e : k0 + (d + 1) = (k0 + 1) + d := by omega
    cases fuel with
    | zero => omega
    | succ fuel =>
      have hnot : ¬ file.read k0 ≤ 0 := by omega
      simp only [read_loop, hlt0, hnot, if_true, if_false]
      apply ih fuel (k0 + 1) (cur + file.read k0)
      · simp only [read_offset, hcur]
      · omega
      · intro i hi hi2
        exact hpos i (by omega) (by omega)
      · rw [← e]
        exact hlt
      · rw [← e]
        exact hbad

/-- The fuel `load_bpf_program` gives the loop is never used up. -/
theorem read_loop_fuel (file : BpfFile) :
    ∀ (fuel k : Nat) (cur : Int) (data : List Byte), (file.size - cur).toNat ≤ fuel →
      read_loop file file.size fuel k cur data ≠ ReadLoop.out_of_fuel := by
  intro fuel
  induction fuel with
  | zero =>
    intro k cur data hfuel
    rw [read_loop_done file file.size 0 k cur data (by omega)]
    simp
  | succ fuel ih =>
    intro k cur data hfuel
    by_cases hlt : cur < file.size
    · by_cases hbad : file.read k ≤ 0
      · simp [read_loop, hlt, hbad]
      · simp only [read_loop, hlt, hbad, if_true, if_false]
        exact ih _ _ _ (by omega)
    · rw [read_loop_done file file.size _ k cur data hlt]
      simp

/-- The loop of `load_bpf_program` never runs out of the fuel it is given. -/
theorem load_bpf_program_fuel (file : BpfFile) :
    read_loop file file.size file.size.toNat 0 0 [] ≠ ReadLoop.out_of_fuel :=
  read_loop_fuel file file.size.toNat 0 0 [] (by simp)

theorem load_bpf_program_bad_size (S : Nat) (file : BpfFile)
    (h : file.size ≤ 0 ∨ file.size % (S : Int) ≠ 0) : load_bpf_program S file = none := by
  unfold load_bpf_program
  by_cases ho : file.open_fd < 0
  · simp [ho]
  · simp only [ho, if_false, h, if_true]

theorem load_bpf_program_complete (S : Nat) (file : BpfFile) (hpos : 0 < file.size)
    (hmul : file.size % (S : Int) = 0) (hopen : 0 ≤ file.open_fd)
    (hmalloc : file.malloc.isSome = true) (hp : reads_partial file) :
    load_bpf_program S file =
      some { len := to_u16 (file.size.toNat / S),
             filter := (List.range file.size.toNat).map file.content } := by
  obtain ⟨m, hm⟩ := Option.isSome_iff_exists.mp hmalloc
  have hloop := read_loop_complete file hp file.size.toNat 0 0 [] rfl (le_refl _) (by omega)
    (by omega) (by simp)
  have hsz : ¬ (file.size ≤ 0 ∨ file.size % (S : Int) ≠ 0) := by
    rw [hmul]
    simp
    omega
  simp only [load_bpf_program, not_lt.mpr hopen, hsz, if_false, hm, hloop]

theorem load_bpf_program_read_error (S : Nat) (file : BpfFile) (h : read_error file) :
    load_bpf_program S file = none := by
  obtain ⟨k, hk, hlt, hbad⟩ := h
  have hloop := read_loop_fail file k file.size.toNat 0 0 [] rfl (by simp)
    (fun i _ hi => hk i (by omega)) (by simpa using hlt) (by simpa using hbad)
  unfold load_bpf_program
  by_cases ho : file.open_fd < 0
  · simp [ho]
  · by_cases hsz : file.size ≤ 0 ∨ file.size % (S : Int) ≠ 0
    · simp only [ho, if_false, hsz, if_true]
    · cases hm : file.malloc with
      | none => simp only [ho, if_false, hsz]
      | some m => simp only [ho, if_false, hsz, hloop]

/-! ### `render_worker_jail_create` with a compiled filter program -/

theorem jail_create_bpf_none (S : Nat) (N : Int) (path : String) (os : JailOs)
    (h : load_bpf_program S os.file = none) :
    (render_worker_jail_create Backend.minijail S N render_worker_jail_seccomp_filter.BPF
      path os).1 = none := by
  cases hc : os.calloc <;> simp [render_worker_jail_create, create_minijail, h, hc]

theorem jail_create_bpf_some (S : Nat) (N : Int) (path : String) (os : JailOs)
    (prog : sock_fprog) (m : Addr) (h : load_bpf_program S os.file = some prog)
    (hc : os.calloc = true) (hm : os.minijail_new = some m) :
    render_worker_jail_create Backend.minijail S N render_worker_jail_seccomp_filter.BPF
        path os =
      (some { max_worker_count := N, minijail := some m, workers := [], worker_count := 0 },
        [OsCall.minijail_new, OsCall.minijail_no_new_privs (some m),
          OsCall.minijail_set_seccomp_filters (some m) prog, OsCall.free_filter,
          OsCall.minijail_use_seccomp_filter (some m)]) := by
  simp [render_worker_jail_create, create_minijail, h, hc, hm, list_inithead]

/-- C6: under the sandboxed backend with the compiled-filter-program selector, a filter
file whose length is `≤ 0` or not a multiple of the instruction size `S` makes
`load_bpf_program` fail and `render_worker_jail_create` return `NULL`.  A file whose length
is a positive multiple of `S`, that can be opened, allocated for (the buffer, the jail and
the sandbox context) and read, is loaded, and `render_worker_jail_create` returns a jail
with the given quota, no workers, and the sandbox context the filter was installed in. -/
theorem render_worker_jail_create_bpf (S : Nat) (N : Int) (path : String) (os : JailOs) :
    ((os.file.size ≤ 0 ∨ os.file.size % (S : Int) ≠ 0) →
      load_bpf_program S os.file = none ∧
        (render_worker_jail_create Backend.minijail S N
          render_worker_jail_seccomp_filter.BPF path os).1 = none) ∧
    (0 < os.file.size → os.file.size % (S : Int) = 0 → 0 ≤ os.file.open_fd →
      os.file.malloc.isSome = true → reads_partial os.file → os.calloc = true →
      os.minijail_new.isSome = true →
      ∃ prog m, load_bpf_program S os.file = some prog ∧ os.minijail_new = some m ∧
        (render_worker_jail_create Backend.minijail S N
          render_worker_jail_seccomp_filter.BPF path os).1 =
          some { max_worker_count := N, minijail := some m, workers := [],
                 worker_count := 0 }) := by
  constructor
  · intro h
    have hl := load_bpf_program_bad_size S os.file h
    exact ⟨hl, jail_create_bpf_none S N path os hl⟩
  · intro hpos hmul hopen hmalloc hp hc hm
    obtain ⟨m, hm⟩ := Option.isSome_iff_exists.mp hm
    have hl := load_bpf_program_complete S os.file hpos hmul hopen hmalloc hp
    exact ⟨_, m, hl, hm, by rw [jail_create_bpf_some S N path os _ m hl hc hm]⟩

/-! ### The instruction count of the loaded program -/

theorem reads_partial_of_whole (file : BpfFile) (hread : ∀ k, file.read k = file.size)
    (hpos : 0 < file.size) : reads_partial file := by
  have hoff : ∀ k, read_offset file (k + 1) ≥ file.size := by
    intro k
    induction k with
    | zero => simp [read_offset, hread]
    | succ k ih =>
      have e : read_offset file (k + 1 + 1) = read_offset file (k + 1) + file.read (k + 1) :=
        rfl
      rw [e, hread]
      omega
  intro k hk
  cases k with
  | zero =>
    simp only [read_offset] at hk ⊢
    rw [hread]
    omega
  | succ k =>
    have := hoff k
    omega

theorem reads_partial_file16 : reads_partial file16 := by
  have hsize : file16.size = 16 := rfl
  have hoff : ∀ k, read_offset file16 (k + 2) ≥ 16 := by
    intro k
    induction k with
    | zero => decide
    | succ k ih =>
      have e : read_offset file16 (k + 1 + 2) =
          read_offset file16 (k + 2) + file16.read (k + 2) := rfl
      have hr : file16.read (k + 2) = 6 := by
        simp [file16, filter_file]
      rw [e, hr]
      omega
  intro k hk
  rw [hsize] at hk ⊢
  match k with
  | 0 => decide
  | 1 => decide
  | k + 2 =>
    have := hoff k
    omega

/-- The instruction count: for a file that passes the size check and is read in parts
of between `1` and the missing number of bytes, the loop ends with all `size` bytes in the
buffer in file order, and the `len` the program gets is `size / S` cut to 16 bits; it is
`size / S` itself when that is below `65536`. -/
theorem load_bpf_program_len (S : Nat) (file : BpfFile) (hpos : 0 < file.size)
    (hmul : file.size % (S : Int) = 0) (hopen : 0 ≤ file.open_fd)
    (hmalloc : file.malloc.isSome = true) (hp : reads_partial file) :
    read_loop file file.size file.size.toNat 0 0 [] =
        ReadLoop.done file.size ((List.range file.size.toNat).map file.content) ∧
      load_bpf_program S file =
        some { len := file.size.toNat / S % 65536,
               filter := (List.range file.size.toNat).map file.content } ∧
      (file.size.toNat / S < 65536 →
        (load_bpf_program S file).map sock_fprog.len = some (file.size.toNat / S)) := by
  have hl := load_bpf_program_complete S file hpos hmul hopen hmalloc hp
  refine ⟨read_loop_complete file hp file.size.toNat 0 0 [] rfl (le_refl _) (by omega)
    (by omega) (by simp), hl, ?_⟩
  intro hlt
  rw [hl]
  simp [to_u16, Nat.mod_eq_of_lt hlt]

/-- C10, at the failing input: a filter file of `65536` instructions (`524288` bytes, the
instruction size being `8`) passes the size check and is read completely, and the program
that `create_minijail` hands to `minijail_set_seccomp_filters` has `len = 0`, not `65536`:
the count does not fit the `unsigned short` field and no check rejects the file. -/
theorem load_bpf_program_len_wraps :
    (524288 : Nat) / sizeof_sock_filter = 65536 ∧
      load_bpf_program sizeof_sock_filter file_65536_instructions =
        some { len := 0,
               filter := (List.range 524288).map file_65536_instructions.content } ∧
      (create_minijail sizeof_sock_filter render_worker_jail_seccomp_filter.BPF ""
          (jail_os file_65536_instructions)).2 =
        [OsCall.minijail_new, OsCall.minijail_no_new_privs (some 900),
          OsCall.minijail_set_seccomp_filters (some 900)
            { len := 0, filter := (List.range 524288).map file_65536_instructions.content },
          OsCall.free_filter, OsCall.minijail_use_seccomp_filter (some 900)] := by
  have hp : reads_partial file_65536_instructions :=
    reads_partial_of_whole _ (fun _ => rfl) (by decide)
  have hl := load_bpf_program_complete sizeof_sock_filter file_65536_instructions
    (by decide) (by decide) (by decide) (by decide) hp
  have hlen : to_u16 (file_65536_instructions.size.toNat / sizeof_sock_filter) = 0 := by
    decide
  have hsz : file_65536_instructions.size.toNat = 524288 := by decide
  rw [hlen, hsz] at hl
  refine ⟨by decide, hl, ?_⟩
  have hf : (jail_os file_65536_instructions).file = file_65536_instructions := rfl
  simp only [create_minijail, hf, hl]
  rfl

/-! ### The theorems at concrete inputs -/

theorem render_worker_create_quota_witness :
    (2 : Int) ≤ INT_MAX ∧
      (render_worker_jail_create Backend.process sizeof_sock_filter 2
        render_worker_jail_seccomp_filter.NONE "" (jail_os file16)).1 = some jail2 ∧
      ([jail2] : World)[0]? = some jail2 ∧
      (([req_spawned 100 41, req_spawned 101 42] : List CreateReq).length : Int) = 2 ∧
      (∀ r ∈ [req_spawned 100 41, req_spawned 101 42],
        spawn_succeeds Backend.process r.os = true) ∧
      ∃ ws W' J',
        create_calls Backend.process 0 [jail2] [req_spawned 100 41, req_spawned 101 42] =
          Outcome.ret (ws, W') ∧
        ws.length = [req_spawned 100 41, req_spawned 101 42].length ∧
        (∀ x ∈ ws, x.isSome = true) ∧ W'[0]? = some J' ∧ J'.worker_count = 2 ∧
        J'.workers = (ws.filterMap fun x => x.map Prod.fst).reverse ∧
        render_worker_create Backend.process W' 0 (req_spawned 102 43).thread_func
            (req_spawned 102 43).thread_data (req_spawned 102 43).thread_data_size
            (req_spawned 102 43).os =
          Outcome.ret { ret := none, world := W', calls := [OsCall.render_log] } :=
  ⟨by decide, by decide, by decide, by decide, by decide,
    render_worker_create_quota Backend.process sizeof_sock_filter 2
      render_worker_jail_seccomp_filter.NONE "" (jail_os file16) jail2 [jail2] 0
      [req_spawned 100 41, req_spawned 101 42] (req_spawned 102 43)
      (by decide) (by decide) (by decide) (by decide) (by decide)⟩

theorem jail_invariant_after_calls_witness :
    (0 : Int) < 2 ∧ (2 : Int) ≤ INT_MAX ∧
      (render_worker_jail_create Backend.process sizeof_sock_filter 2
        render_worker_jail_seccomp_filter.NONE "" (jail_os file16)).1 = some jail2 ∧
      ([jail2] : World)[0]? = some jail2 ∧
      destroys_registered Backend.process 0 [jail2] scenario_ops = true ∧
      jail_run Backend.process 0 [jail2] scenario_ops = Outcome.ret [jail2_refilled] ∧
      ∃ W' J', jail_run Backend.process 0 [jail2] scenario_ops = Outcome.ret W' ∧
        W'[0]? = some J' ∧ J'.worker_count = (J'.workers.length : Int) ∧
        0 ≤ J'.worker_count ∧ J'.worker_count ≤ J'.max_worker_count ∧
        J'.max_worker_count = 2 :=
  ⟨by decide, by decide, by decide, by decide, by decide, by decide,
    jail_invariant_after_calls Backend.process sizeof_sock_filter 2
      render_worker_jail_seccomp_filter.NONE "" (jail_os file16) jail2 [jail2] 0 scenario_ops
      (by decide) (by decide) (by decide) (by decide) (by decide)⟩

theorem render_worker_reap_attribution_witness :
    Backend.process ≠ Backend.thread ∧ worker41.reaped = false ∧ 0 < worker41.pid ∧
      render_worker_reap Backend.process 0 worker41 true (os_exited 41) =
        Outcome.ret { ret := true, worker := { worker41 with reaped := true },
                      calls := [OsCall.waitid_P_PID 41 true false] } ∧
      render_worker_reap Backend.process 0 worker41 false (os_exited 40) =
        Outcome.ret { ret := false, worker := worker41,
                      calls := [OsCall.waitid_P_PID 41 true true] } ∧
      ∃ ok, render_worker_reap Backend.process 0 worker41 true (os_exited 41) =
          Outcome.ret { ret := ok, worker := { worker41 with reaped := ok },
                        calls := [OsCall.waitid_P_PID worker41.pid true (!true)] } ∧
        (ok = true ↔ (os_exited 41).waitid_ret = 0 ∧ (os_exited 41).si_pid = some worker41.pid) ∧
        (ok = false → ({ worker41 with reaped := ok } : render_worker) = worker41) :=
  ⟨by decide, by decide, by decide, by decide, by decide,
    render_worker_reap_attribution Backend.process 0 worker41 true (os_exited 41)
      (by decide) (by decide) (by decide)⟩

theorem render_worker_reap_idempotent_witness :
    ({ worker41 with reaped := true } : render_worker).reaped = true ∧
      render_worker_is_record Backend.process 0 { worker41 with reaped := true } = true ∧
      render_worker_reap Backend.process 0 { worker41 with reaped := true } false
          (os_exited 40) =
        Outcome.ret { ret := true, worker := { worker41 with reaped := true }, calls := [] } ∧
      (∀ ops, worker_run Backend.process { worker41 with reaped := true } ops = Outcome.abort ∨
        worker_run Backend.process { worker41 with reaped := true } ops =
          Outcome.ret { worker41 with reaped := true }) ∧
      (∀ ops, (∀ op ∈ ops,
          render_worker_is_record Backend.process op.cur { worker41 with reaped := true } = true) →
        worker_run Backend.process { worker41 with reaped := true } ops =
          Outcome.ret { worker41 with reaped := true }) :=
  ⟨by decide, by decide,
    render_worker_reap_idempotent Backend.process 0 { worker41 with reaped := true } false
      (os_exited 40) (by decide) (by decide)⟩

theorem render_worker_create_entry_witness :
    render_worker_create Backend.thread [jail2] 0 7 [1, 2, 3] 3 (os_spawned 100 41) =
        Outcome.ret { ret := some (100, { worker41 with thread := 41, pid := 0 }),
                      world := [jail2_with_100],
                      calls := [OsCall.calloc_worker 3, OsCall.thrd_create 7 [1, 2, 3]] } ∧
      ({ worker41 with thread := 41, pid := 0 } : render_worker).thread_data =
        [1, 2, 3].take 3 ∧
      ({ worker41 with thread := 41, pid := 0 } : render_worker).reaped = false ∧
      (Backend.thread = Backend.thread →
        entry_invocations [OsCall.calloc_worker 3, OsCall.thrd_create 7 [1, 2, 3]] =
          [(7, ({ worker41 with thread := 41, pid := 0 } : render_worker).thread_data)]) ∧
      (Backend.thread ≠ Backend.thread →
        entry_invocations [OsCall.calloc_worker 3, OsCall.thrd_create 7 [1, 2, 3]] = [] ∧
          0 ≤ ({ worker41 with thread := 41, pid := 0 } : render_worker).pid ∧
          (render_worker_is_record Backend.thread 5
              { worker41 with thread := 41, pid := 0 } = false ↔
            ({ worker41 with thread := 41, pid := 0 } : render_worker).pid = 0)) :=
  ⟨by decide,
    render_worker_create_entry Backend.thread [jail2] 0 7 [1, 2, 3] 3 (os_spawned 100 41)
      { ret := some (100, { worker41 with thread := 41, pid := 0 }), world := [jail2_with_100],
        calls := [OsCall.calloc_worker 3, OsCall.thrd_create 7 [1, 2, 3]] }
      100 { worker41 with thread := 41, pid := 0 } 5 (by decide) rfl⟩

theorem render_worker_jail_create_bpf_witness :
    ((file12.size ≤ 0 ∨ file12.size % (sizeof_sock_filter : Int) ≠ 0) ∧
      load_bpf_program sizeof_sock_filter file12 = none ∧
      (render_worker_jail_create Backend.minijail sizeof_sock_filter 2
        render_worker_jail_seccomp_filter.BPF "" (jail_os file12)).1 = none) ∧
    (0 < file16.size ∧ file16.size % (sizeof_sock_filter : Int) = 0 ∧ 0 ≤ file16.open_fd ∧
      file16.malloc.isSome = true ∧ reads_partial file16 ∧
      load_bpf_program sizeof_sock_filter file16 =
        some { len := 2, filter := List.range 16 } ∧
      ∃ prog m, load_bpf_program sizeof_sock_filter (jail_os file16).file = some prog ∧
        (jail_os file16).minijail_new = some m ∧
        (render_worker_jail_create Backend.minijail sizeof_sock_filter 2
          render_worker_jail_seccomp_filter.BPF "" (jail_os file16)).1 =
          some { max_worker_count := 2, minijail := some m, workers := [],
                 worker_count := 0 }) :=
  ⟨⟨by decide,
      (render_worker_jail_create_bpf sizeof_sock_filter 2 "" (jail_os file12)).1 (by decide)⟩,
    by decide, by decide, by decide, by decide, reads_partial_file16, by decide,
    (render_worker_jail_create_bpf sizeof_sock_filter 2 "" (jail_os file16)).2
      (by decide) (by decide) (by decide) (by decide) reads_partial_file16 (by decide)
      (by decide)⟩

theorem render_worker_create_spawn_failure_witness :
    ([jail2_with_100] : World)[0]? = some jail2_with_100 ∧
      jail2_with_100.worker_count < jail2_with_100.max_worker_count ∧
      spawn_fails Backend.process os_fork_fails = true ∧
      render_worker_create Backend.process [jail2_with_100] 0 7 [1, 2, 3] 3 os_fork_fails =
        Outcome.ret
          { ret := none, world := [jail2_with_100],
            calls :=
              match os_fork_fails.calloc with
              | none => [OsCall.calloc_worker 3]
              | some a =>
                OsCall.calloc_worker 3 ::
                  (spawn Backend.process jail2_with_100 7 (fresh_worker [1, 2, 3] 3)
                    os_fork_fails).2.2 ++ [OsCall.free a] } :=
  ⟨by decide, by decide, by decide,
    render_worker_create_spawn_failure Backend.process [jail2_with_100] 0 jail2_with_100 7
      [1, 2, 3] 3 os_fork_fails (by decide) (by decide) (by decide)⟩

theorem render_worker_destroy_other_jail_witness :
    (0 : Nat) ≠ 1 ∧ ([jail2, jail2_with_100] : World)[0]? = some jail2 ∧
      ([jail2, jail2_with_100] : World)[1]? = some jail2_with_100 ∧
      100 ∉ jail2.workers ∧ 100 ∈ jail2_with_100.workers ∧
      ∃ W1, render_worker_destroy [jail2, jail2_with_100] 0 100 =
          Outcome.ret (W1, [OsCall.free 100]) ∧
        W1[0]? = some { jail2 with worker_count := wrap_int (jail2.worker_count - 1) } ∧
        W1[1]? = some { jail2_with_100 with workers := jail2_with_100.workers.erase 100 } :=
  ⟨by decide, by decide, by decide, by decide, by decide,
    render_worker_destroy_other_jail [jail2, jail2_with_100] 0 1 jail2 jail2_with_100 100
      (by decide) (by decide) (by decide) (by decide) (by decide)⟩

/-- The scenario with the quota `2` under the subprocess backend: A and B are created, C is
refused, A is killed, reaped with `wait = true` and destroyed, then C is created and the
registry holds two records again. -/
theorem render_worker_destroy_registered_witness :
    ([jail2_full] : World)[0]? = some jail2_full ∧ jail_invariant jail2_full ∧
      jail2_full.max_worker_count ≤ INT_MAX ∧ jail2_full.workers.Nodup ∧
      100 ∈ jail2_full.workers ∧
      create_calls Backend.process 0 [jail2]
          [req_spawned 100 41, req_spawned 101 42, req_spawned 102 43] =
        Outcome.ret ([some (100, worker41), some (101, { worker41 with pid := 42 }), none],
          [jail2_full]) ∧
      render_worker_kill Backend.process 0 worker41 = Outcome.ret [OsCall.kill_SIGKILL 41] ∧
      render_worker_reap Backend.process 0 worker41 true (os_exited 41) =
        Outcome.ret { ret := true, worker := { worker41 with reaped := true },
                      calls := [OsCall.waitid_P_PID 41 true false] } ∧
      render_worker_destroy [jail2_full] 0 100 =
        Outcome.ret ([jail2_with_101], [OsCall.free 100]) ∧
      create_call Backend.process 0 [jail2_with_101] (req_spawned 102 43) =
        Outcome.ret { ret := some (102, { worker41 with pid := 43 }), world := [jail2_refilled],
                      calls := [OsCall.calloc_worker 3, OsCall.fork] } ∧
      jail2_refilled.workers.length = 2 ∧
      ∃ W1 J1, render_worker_destroy [jail2_full] 0 100 = Outcome.ret (W1, [OsCall.free 100]) ∧
        W1[0]? = some J1 ∧ 100 ∉ J1.workers ∧
        (∀ x, x ≠ 100 → (x ∈ J1.workers ↔ x ∈ jail2_full.workers)) ∧
        J1.worker_count = jail2_full.worker_count - 1 ∧
        J1.max_worker_count = jail2_full.max_worker_count ∧
        (∀ k Jk, k ≠ 0 → ([jail2_full] : World)[k]? = some Jk → 100 ∉ Jk.workers →
          W1[k]? = some Jk) ∧
        (jail2_full.max_worker_count ≤ jail2_full.worker_count →
          (∀ r, create_call Backend.process 0 [jail2_full] r =
            Outcome.ret { ret := none, world := [jail2_full], calls := [OsCall.render_log] }) ∧
          ∀ r a, r.os.calloc = some a → spawn_succeeds Backend.process r.os = true →
            ∃ res J2, create_call Backend.process 0 W1 r = Outcome.ret res ∧
              (res.ret.map Prod.fst) = some a ∧ res.world[0]? = some J2 ∧
              J2.workers = a :: jail2_full.workers.erase 100 ∧
              (J2.workers.length : Int) = J2.max_worker_count ∧
              J2.worker_count = J2.max_worker_count ∧
              J2.max_worker_count = jail2_full.max_worker_count) :=
  ⟨by decide, by decide, by decide, by decide, by decide, by decide, by decide, by decide,
    by decide, by decide, by decide,
    render_worker_destroy_registered Backend.process [jail2_full] 0 jail2_full 100
      (by decide) (by decide) (by decide) (by decide) (by decide)⟩

end RenderWorker
